import Mathlib

/-
Verification of the THETA data-explorer core (src/app.py) against its
specification.  The pandas DataFrame is modelled column-major: a `Table`
is a row count plus a list of named, typed columns whose cells are
strings, extended numbers (finite rational, +inf, -inf), booleans or
missing (NaN).  `build_filters` is translated branch by branch from
src/app.py, keeping the pandas semantics that the claims hinge on:

* `astype(str)` renders a missing cell (NaN) as the string "nan";
* `Series.between` is false on a missing cell;
* `Series.min`/`Series.max` skip missing values and return NaN (here:
  `none`) on an all-missing column; `math.isfinite` rejects NaN and ±inf;
* `pd.api.types.is_numeric_dtype` is true for bool dtype as well, so the
  `elif is_bool_dtype` branch of the source is unreachable (bool columns
  take the numeric-slider branch);
* `groupby` drops missing group keys (dropna=True default) and sorts the
  remaining keys;
* `reset_index` raises `ValueError: cannot insert <name>, already exists`
  when the grouping key is also one of the aggregated columns;
* `st.slider(min_value, max_value)` raises StreamlitAPIException when the
  two bounds are equal, so a numeric column with finite min == max crashes
  the run: `build_filtersE` carries this error path, while `build_filters`
  is the pure mask semantics of a non-crashing run;
* `str.contains(pat, case=False, na=False)` treats the query as a regular
  expression (regex=True default).  On queries free of regex
  metacharacters (`isLiteralPat`) regex search coincides with
  case-insensitive substring containment, which `containsCI` implements;
  theorems that touch substring masks either deactivate them or restrict
  to such queries.

Streamlit widgets only supply parameters; they are modelled by the
`ColParams` record (one per column, keyed by column name, exactly like
the `key=f"{col}_..."` widget keys of the source).  A slider whose state
was never touched reports its default, the full `(min, max)` of the
column; this is modelled by `range = none`.
-/

namespace Theta

/-- Extended numeric value of a float cell: finite rational, or ±infinity.
NaN is represented by `Cell.missing`, matching pandas treating NaN as a
missing value. -/
inductive NumVal where
  | fin (q : Rat)
  | pinf
  | ninf
deriving DecidableEq

/-- One cell of a table: string, number, boolean, or missing (NaN/None). -/
inductive Cell where
  | str (s : String)
  | num (v : NumVal)
  | boolean (b : Bool)
  | missing
deriving DecidableEq

/-- Declared pandas dtype of a column, as far as the source dispatches on
it: `object`, `category`, a numpy numeric dtype, `bool`, or anything else
(datetime etc., which gets no widget). -/
inductive Dtype where
  | obj
  | category
  | numeric
  | boolean
  | other
deriving DecidableEq

/-- A named, typed column. -/
structure Col where
  name : String
  dtype : Dtype
  data : List Cell
deriving DecidableEq

/-- A DataFrame: a row count and the ordered columns.  Row order is the
list order of each column's `data`. -/
structure Table where
  nrows : Nat
  cols : List Col
deriving DecidableEq

/-- Well-formedness: every column holds exactly `nrows` cells. -/
def wfB (df : Table) : Bool :=
  df.cols.all (fun c => c.data.length == df.nrows)

/-- Comparison `nvLeB a b = true` iff `a ≤ b` in the extended real order
used by pandas for float min/max and `between`. -/
def nvLeB : NumVal → NumVal → Bool
  | NumVal.ninf, _ => true
  | _, NumVal.pinf => true
  | NumVal.fin a, NumVal.fin b => a ≤ b
  | NumVal.pinf, _ => false
  | _, NumVal.ninf => false

/-- String form of a number, a stand-in for Python float formatting
(Python renders 1.0 where Rat prints 1; no judged theorem depends on the
rendering of a numeric cell). -/
def nvStr : NumVal → String
  | NumVal.fin q => toString q
  | NumVal.pinf => "inf"
  | NumVal.ninf => "-inf"

/-- The pandas `astype(str)` rendering of one cell.  Crucially, a missing
cell (NaN) becomes the three-letter string "nan". -/
def cellStr : Cell → String
  | Cell.str s => s
  | Cell.num v => nvStr v
  | Cell.boolean b => if b then "True" else "False"
  | Cell.missing => "nan"

/-- Numeric view of a cell, as numpy coerces it inside a numeric
comparison: numbers are themselves, booleans are 0/1, strings and
missing cells have no numeric value. -/
def numValQ : Cell → Option NumVal
  | Cell.num v => some v
  | Cell.boolean b => some (NumVal.fin (if b then 1 else 0))
  | _ => none

/-- Test whether `pat` occurs in `hay` (as character lists). -/
def startsWithL : List Char → List Char → Bool
  | [], _ => true
  | _ :: _, [] => false
  | a :: as, b :: bs => a == b && startsWithL as bs

/-- Substring occurrence on character lists (Python's `in`). -/
def containsL (pat : List Char) : List Char → Bool
  | [] => pat.isEmpty
  | b :: bs => startsWithL pat (b :: bs) || containsL pat bs

/-- Case-insensitive substring containment.  The source's
`str.contains(val, case=False, na=False)` (and the free-text search)
actually treats the query as a regular expression (pandas regex=True
default); on queries free of regex metacharacters — see `isLiteralPat` —
`re.search` with IGNORECASE is exactly this substring test, and the
theorems about substring masks restrict to, or deactivate, such
queries. -/
def containsCI (pat hay : String) : Bool :=
  containsL pat.toLower.toList hay.toLower.toList

/-- The characters that are special in a Python regular expression. -/
def reMetaChars : List Char :=
  ['.', '^', '$', '*', '+', '?', '{', '}', '[', ']', '\\', '|', '(', ')']

/-- A query containing no regex metacharacter: on these, pandas
`str.contains` (regex=True) is plain case-insensitive substring
containment and `re.compile` cannot fail. -/
def isLiteralPat (pat : String) : Bool :=
  pat.toList.all (fun c => !(reMetaChars.contains c))

/-- Distinct count of the non-missing cells, the source's
`col_data.nunique(dropna=True)`. -/
def nunique (data : List Cell) : Nat :=
  ((data.filter (fun x => !(x == Cell.missing))).dedup).length

/-- Minimum of two extended numbers. -/
def minNV (a b : NumVal) : NumVal := if nvLeB a b then a else b

/-- Maximum of two extended numbers. -/
def maxNV (a b : NumVal) : NumVal := if nvLeB a b then b else a

/-- Minimum of a list of extended numbers (`none` for the empty list,
matching `Series.min()` returning NaN on an all-missing column). -/
def listMinNV : List NumVal → Option NumVal
  | [] => none
  | v :: vs =>
    match listMinNV vs with
    | none => some v
    | some w => some (minNV v w)

/-- Maximum of a list of extended numbers. -/
def listMaxNV : List NumVal → Option NumVal
  | [] => none
  | v :: vs =>
    match listMaxNV vs with
    | none => some v
    | some w => some (maxNV v w)

/-- The numeric values present in a column (missing values skipped). -/
def colVals (data : List Cell) : List NumVal := data.filterMap numValQ

/-- `float(col_data.min())` of the source: `none` plays NaN. -/
def colMin (data : List Cell) : Option NumVal := listMinNV (colVals data)

/-- `float(col_data.max())` of the source. -/
def colMax (data : List Cell) : Option NumVal := listMaxNV (colVals data)

/-- The mask entry `col_data.between(low, high)` for one cell: false on a
missing cell, numeric comparison otherwise. -/
def betweenB (low high : Rat) (x : Cell) : Bool :=
  match numValQ x with
  | some v => nvLeB (NumVal.fin low) v && nvLeB v (NumVal.fin high)
  | none => false

/-- Tri-state boolean filter choice of the (dead) `is_bool_dtype` branch. -/
inductive BoolChoice where
  | noFilter
  | trueOnly
  | falseOnly
deriving DecidableEq

/-- Current widget parameters for one column (streamlit state under the
keys `f"{col}_multiselect"`, `f"{col}_contains"`, `f"{col}_slider"`,
`f"{col}_bool"`).  `range = none` means the slider was never moved and
reports its default, the full `(min, max)` of the column; the slider UI
keeps a chosen pair inside those bounds. -/
structure ColParams where
  selected : List String
  contains : String
  range : Option (Rat × Rat)
  boolChoice : BoolChoice

/-- All live user parameters: the global free-text search plus the
per-column widget states, looked up by column name. -/
structure Params where
  search : String
  col : String → ColParams

/-- Parameters of a column nobody touched. -/
def inactive : ColParams := ⟨[], "", none, BoolChoice.noFilter⟩

/-- Dispatch test of the first branch of the per-column loop:
`col_dtype == "object" or str(col_dtype).startswith("category")`. -/
def isCatDtype (d : Dtype) : Bool := d == Dtype.obj || d == Dtype.category

/-- Dispatch test `pd.api.types.is_numeric_dtype(col_dtype)`; true for
numeric and for bool dtype (numpy bool counts as numeric). -/
def isNumDtype (d : Dtype) : Bool := d == Dtype.numeric || d == Dtype.boolean

/-- Dispatch test `pd.api.types.is_bool_dtype(col_dtype)`. -/
def isBoolDtype (d : Dtype) : Bool := d == Dtype.boolean

/-- The zero or one masks the per-column loop body appends to
`filter_masks` for one column, translated branch by branch from
src/app.py lines 54-109. -/
def colMask (p : Params) (c : Col) : List (List Bool) :=
  if isCatDtype c.dtype then
    if nunique c.data ≤ 40 then
      if (p.col c.name).selected.isEmpty then []
      else [c.data.map (fun x => (p.col c.name).selected.contains (cellStr x))]
    else
      if (p.col c.name).contains == "" then []
      else [c.data.map (fun x => containsCI (p.col c.name).contains (cellStr x))]
  else if isNumDtype c.dtype then
    match colMin c.data, colMax c.data with
    | some (NumVal.fin a), some (NumVal.fin b) =>
      [c.data.map (betweenB ((p.col c.name).range.getD (a, b)).1
                            ((p.col c.name).range.getD (a, b)).2)]
    | _, _ => []
  else if isBoolDtype c.dtype then
    match (p.col c.name).boolChoice with
    | BoolChoice.noFilter => []
    | BoolChoice.trueOnly => [c.data.map (fun x => x == Cell.boolean true)]
    | BoolChoice.falseOnly => [c.data.map (fun x => x == Cell.boolean false)]
  else []

/-- The string-dtype columns, `df.select_dtypes(include=["object", "string"])`
(category dtype is not included there). -/
def strCols (df : Table) : List Col := df.cols.filter (fun c => c.dtype == Dtype.obj)

/-- The zero or one masks of the free-text search (src/app.py lines 44-52):
any string column's lowercased string form contains the lowercased query. -/
def searchMask (df : Table) (p : Params) : List (List Bool) :=
  if p.search == "" then []
  else if (strCols df).isEmpty then []
  else [(List.range df.nrows).map (fun i =>
    (strCols df).any (fun c => containsCI p.search (cellStr (c.data.getD i Cell.missing))))]

/-- Concatenation of the per-column masks of a column list. -/
def collectMasks (p : Params) : List Col → List (List Bool)
  | [] => []
  | c :: cs => colMask p c ++ collectMasks p cs

/-- The full `filter_masks` list of `build_filters`. -/
def buildMasks (df : Table) (p : Params) : List (List Bool) :=
  searchMask df p ++ collectMasks p df.cols

/-- Keep the entries of `data` whose mask bit is true (`df[mask]` on one
column). -/
def maskFilter : List Bool → List Cell → List Cell
  | b :: ms, x :: xs => if b then x :: maskFilter ms xs else maskFilter ms xs
  | _, _ => []

/-- Number of true bits of a mask. -/
def countTrue : List Bool → Nat
  | [] => 0
  | b :: bs => (if b then 1 else 0) + countTrue bs

/-- Restrict a table to the rows a mask keeps (`df[combined_mask]`). -/
def applyMask (m : List Bool) (df : Table) : Table :=
  ⟨countTrue m, df.cols.map (fun c => ⟨c.name, c.dtype, maskFilter m c.data⟩)⟩

/-- The source's `build_filters(df)`: fold all masks with logical AND and
apply them; return the table unfiltered when no mask is active. -/
def build_filters (df : Table) (p : Params) : Table :=
  match buildMasks df p with
  | [] => df
  | m :: ms => applyMask (ms.foldl (fun a b => a.zipWith (fun x y => x && y) b) m) df

/-- True iff row `i` of `df` satisfies every active mask, i.e. survives
into `build_filters df p` (see `build_filters_eq_applyMask`). -/
def rowKept (df : Table) (p : Params) (i : Nat) : Bool :=
  (buildMasks df p).all (fun m => m.getD i false)

/-- The combined keep-mask over all rows. -/
def keepMask (df : Table) (p : Params) : List Bool :=
  (List.range df.nrows).map (rowKept df p)

/-- Outcome of one run of the source's `build_filters`: the composed
filtered view, or the StreamlitAPIException raised by `st.slider`. -/
inductive FilterResult where
  | ok (t : Table)
  | raisesSlider
deriving DecidableEq

/-- Columns on which the per-column loop raises before building a mask:
a numeric-dtype column with finite, equal bounds reaches
`st.slider(min_value=v, max_value=v, ...)` (src/app.py lines 89-95),
which raises StreamlitAPIException; non-finite bounds `continue` before
the slider is created. -/
def colSliderCrashB (c : Col) : Bool :=
  (!(isCatDtype c.dtype)) && isNumDtype c.dtype &&
    (match colMin c.data, colMax c.data with
     | some (NumVal.fin a), some (NumVal.fin b) => a == b
     | _, _ => false)

/-- Whether running `build_filters` on this table raises at some slider. -/
def anySliderCrashB (df : Table) : Bool := df.cols.any colSliderCrashB

/-- The observable result of running `build_filters`: if any numeric
column has a degenerate finite range the loop raises at its slider and
nothing is returned (which widgets were already rendered is presentation
state, not part of the result); otherwise the run returns the composed
view `build_filters df p`. -/
def build_filtersE (df : Table) (p : Params) : FilterResult :=
  if anySliderCrashB df then FilterResult.raisesSlider
  else FilterResult.ok (build_filters df p)

/-- Widget kind the implicit column classifier of `build_filters` picks. -/
inductive FilterKind where
  | catSelect
  | catSubstring
  | numRange
  | boolTri
  | skipCol
deriving DecidableEq

/-- The column classifier: the branch structure of the per-column loop of
`build_filters`, i.e. which widget (if any) a column receives. -/
def classify (c : Col) : FilterKind :=
  if isCatDtype c.dtype then
    if nunique c.data ≤ 40 then FilterKind.catSelect else FilterKind.catSubstring
  else if isNumDtype c.dtype then
    match colMin c.data, colMax c.data with
    | some (NumVal.fin _), some (NumVal.fin _) => FilterKind.numRange
    | _, _ => FilterKind.skipCol
  else if isBoolDtype c.dtype then FilterKind.boolTri
  else FilterKind.skipCol

/-- Delimiter sniffing of `load_from_url`:
`sep = "," if content.count(",") >= content.count("\t") else "\t"`. -/
def sniffSep (content : String) : Char :=
  if content.toList.count ',' ≥ content.toList.count '\t' then ',' else '\t'

/-- Aggregation kind of the "Quick summaries" selectbox. -/
inductive AggKind where
  | mean
  | median
  | sum
  | count
deriving DecidableEq

/-- Constructor rank used by the pandas `safe_sort` fallback when group
keys mix types; numbers, then strings, then booleans. -/
def cellRank : Cell → Nat
  | Cell.num _ => 0
  | Cell.str _ => 1
  | Cell.boolean _ => 2
  | Cell.missing => 3

/-- String order via `compare`, modelling lexical sorting of keys. -/
def strLeB (a b : String) : Bool := !(compare a b == Ordering.gt)

/-- Total order on cells used to sort group keys: numeric keys by value,
string keys lexically, same-type otherwise by rank. -/
def cellLeB (a b : Cell) : Bool :=
  if cellRank a == cellRank b then
    match a, b with
    | Cell.num x, Cell.num y => nvLeB x y
    | Cell.str x, Cell.str y => strLeB x y
    | Cell.boolean x, Cell.boolean y => !x || y
    | _, _ => true
  else cellRank a ≤ cellRank b

/-- Ordered insertion for the key sort. -/
def insertCell (x : Cell) : List Cell → List Cell
  | [] => [x]
  | y :: ys => if cellLeB x y then x :: y :: ys else y :: insertCell x ys

/-- Insertion sort of group keys (ascending, the `groupby` sort order). -/
def sortCells : List Cell → List Cell
  | [] => []
  | x :: xs => insertCell x (sortCells xs)

/-- Ordered insertion for sorting numeric values (median). -/
def insertNV (x : NumVal) : List NumVal → List NumVal
  | [] => [x]
  | y :: ys => if nvLeB x y then x :: y :: ys else y :: insertNV x ys

/-- Insertion sort of numeric values. -/
def sortNV : List NumVal → List NumVal
  | [] => []
  | x :: xs => insertNV x (sortNV xs)

/-- Data of the column named `g` (first match), empty if absent. -/
def colData (df : Table) (g : String) : List Cell :=
  match df.cols.find? (fun c => c.name == g) with
  | some c => c.data
  | none => []

/-- Distinct non-missing values of the group column in ascending order:
the group keys of `filtered_df.groupby(group_col)` (dropna=True drops
missing keys). -/
def groupKeys (df : Table) (g : String) : List Cell :=
  sortCells ((colData df g).filter (fun x => !(x == Cell.missing))).dedup

/-- The numeric columns, `df.select_dtypes(include="number")` (np.number,
which excludes bool dtype). -/
def numericCols (df : Table) : List Col :=
  df.cols.filter (fun c => c.dtype == Dtype.numeric)

/-- Values of column `c` on the rows of group `kc`, missing values
dropped (pandas aggregations skip NaN inside a group). -/
def groupNums (df : Table) (g : String) (kc : Cell) (c : Col) : List NumVal :=
  ((colData df g).zip c.data).filterMap
    (fun pr => if pr.1 == kc then numValQ pr.2 else none)

/-- Infinity membership helpers for float aggregation. -/
def hasPinf (vs : List NumVal) : Bool := vs.any (fun v => v == NumVal.pinf)

/-- Negative-infinity membership. -/
def hasNinf (vs : List NumVal) : Bool := vs.any (fun v => v == NumVal.ninf)

/-- Sum of the finite values of a list. -/
def finSum : List NumVal → Rat
  | [] => 0
  | NumVal.fin q :: vs => q + finSum vs
  | _ :: vs => finSum vs

/-- Float sum: infinities of both signs give NaN, one sign dominates. -/
def sumNV (vs : List NumVal) : Cell :=
  if hasPinf vs && hasNinf vs then Cell.missing
  else if hasPinf vs then Cell.num NumVal.pinf
  else if hasNinf vs then Cell.num NumVal.ninf
  else Cell.num (NumVal.fin (finSum vs))

/-- Float mean: NaN on an empty group, otherwise sum over count. -/
def meanNV (vs : List NumVal) : Cell :=
  if vs.isEmpty then Cell.missing
  else if hasPinf vs && hasNinf vs then Cell.missing
  else if hasPinf vs then Cell.num NumVal.pinf
  else if hasNinf vs then Cell.num NumVal.ninf
  else Cell.num (NumVal.fin (finSum vs / (vs.length : Rat)))

/-- Average of the two central sorted values (the even-length median). -/
def avg2 : NumVal → NumVal → Cell
  | NumVal.fin a, NumVal.fin b => Cell.num (NumVal.fin ((a + b) / 2))
  | NumVal.ninf, NumVal.pinf => Cell.missing
  | NumVal.pinf, NumVal.ninf => Cell.missing
  | NumVal.pinf, _ => Cell.num NumVal.pinf
  | _, NumVal.pinf => Cell.num NumVal.pinf
  | NumVal.ninf, _ => Cell.num NumVal.ninf
  | _, NumVal.ninf => Cell.num NumVal.ninf

/-- Float median by sorting (interpolating the two central values). -/
def medianNV (vs : List NumVal) : Cell :=
  match sortNV vs with
  | [] => Cell.missing
  | w :: ws =>
    if (w :: ws).length % 2 == 1 then
      Cell.num ((w :: ws).getD ((w :: ws).length / 2) (NumVal.fin 0))
    else
      avg2 ((w :: ws).getD ((w :: ws).length / 2 - 1) (NumVal.fin 0))
           ((w :: ws).getD ((w :: ws).length / 2) (NumVal.fin 0))

/-- One aggregate value of a group. -/
def aggCell (k : AggKind) (vs : List NumVal) : Cell :=
  match k with
  | AggKind.mean => meanNV vs
  | AggKind.median => medianNV vs
  | AggKind.sum => sumNV vs
  | AggKind.count => Cell.num (NumVal.fin (vs.length : Rat))

/-- Outcome of the "Quick summaries" block: the informational
"No numeric columns to summarise." no-op, a summary table (one row per
group key, with the aggregate cells), or an uncaught pandas exception. -/
inductive SummaryResult where
  | noNumeric
  | table (rows : List (Cell × List Cell))
  | raisesError
deriving DecidableEq

/-- The summary engine of `main()` (src/app.py lines 177-191).  The
branch on `numeric_cols` comes first; then `groupby(group_col)` raises a
KeyError if the column is absent; `.size().reset_index(name="count")`
raises `ValueError: cannot insert ...` if the group column is itself
named "count", and the non-count `reset_index()` raises it whenever the
group column is one of the aggregated numeric columns. -/
def summarize (df : Table) (g : String) (k : AggKind) : SummaryResult :=
  if (numericCols df).isEmpty then SummaryResult.noNumeric
  else if (df.cols.find? (fun c => c.name == g)).isNone then SummaryResult.raisesError
  else match k with
  | AggKind.count =>
    if g == "count" then SummaryResult.raisesError
    else SummaryResult.table ((groupKeys df g).map (fun kc =>
      (kc, [Cell.num (NumVal.fin (((colData df g).count kc : Nat) : Rat))])))
  | _ =>
    if (numericCols df).any (fun c => c.name == g) then SummaryResult.raisesError
    else SummaryResult.table ((groupKeys df g).map (fun kc =>
      (kc, (numericCols df).map (fun c => aggCell k (groupNums df g kc c)))))

/- ### Order lemmas for extended numbers -/

lemma nvLeB_refl (v : NumVal) : nvLeB v v = true := by
  cases v <;> simp [nvLeB]

lemma nvLeB_total (a b : NumVal) : nvLeB a b = true ∨ nvLeB b a = true := by
  cases a <;> cases b <;> simp [nvLeB]
  exact le_total _ _

lemma nvLeB_trans {a b c : NumVal} (h₁ : nvLeB a b = true) (h₂ : nvLeB b c = true) :
    nvLeB a c = true := by
  cases a <;> cases b <;> cases c <;> simp_all [nvLeB]
  exact le_trans h₁ h₂

lemma minNV_le_left (a b : NumVal) : nvLeB (minNV a b) a = true := by
  unfold minNV
  by_cases h : nvLeB a b = true
  · simp [h, nvLeB_refl]
  · rcases nvLeB_total a b with h' | h'
    · exact absurd h' h
    · simp [h, h']

lemma minNV_le_right (a b : NumVal) : nvLeB (minNV a b) b = true := by
  unfold minNV
  by_cases h : nvLeB a b = true
  · simp [h]
  · simp [h, nvLeB_refl]

lemma left_le_maxNV (a b : NumVal) : nvLeB a (maxNV a b) = true := by
  unfold maxNV
  by_cases h : nvLeB a b = true
  · simp [h]
  · simp [h, nvLeB_refl]

lemma right_le_maxNV (a b : NumVal) : nvLeB b (maxNV a b) = true := by
  unfold maxNV
  by_cases h : nvLeB a b = true
  · simp [h, nvLeB_refl]
  · rcases nvLeB_total a b with h' | h'
    · exact absurd h' h
    · simp [h, h']

lemma listMinNV_none {l : List NumVal} (hw : listMinNV l = none) : l = [] := by
  cases l with
  | nil => rfl
  | cons v vs =>
    cases hmin : listMinNV vs <;> simp [listMinNV, hmin] at hw

lemma listMaxNV_none {l : List NumVal} (hw : listMaxNV l = none) : l = [] := by
  cases l with
  | nil => rfl
  | cons v vs =>
    cases hmax : listMaxNV vs <;> simp [listMaxNV, hmax] at hw

lemma listMinNV_le {l : List NumVal} {w : NumVal} (hw : listMinNV l = some w) :
    ∀ v ∈ l, nvLeB w v = true := by
  induction l generalizing w with
  | nil => simp [listMinNV] at hw
  | cons v vs ih =>
    intro x hx
    rcases List.mem_cons.mp hx with hx | hx
    · cases hmin : listMinNV vs with
      | none => simp [listMinNV, hmin] at hw; subst hw; subst hx; exact nvLeB_refl _
      | some u =>
        simp [listMinNV, hmin] at hw
        subst hw; subst hx
        exact minNV_le_left _ _
    · cases hmin : listMinNV vs with
      | none => rw [listMinNV_none hmin] at hx; simp at hx
      | some u =>
        simp [listMinNV, hmin] at hw
        subst hw
        exact nvLeB_trans (minNV_le_right v u) (ih hmin x hx)

lemma le_listMaxNV {l : List NumVal} {w : NumVal} (hw : listMaxNV l = some w) :
    ∀ v ∈ l, nvLeB v w = true := by
  induction l generalizing w with
  | nil => simp [listMaxNV] at hw
  | cons v vs ih =>
    intro x hx
    rcases List.mem_cons.mp hx with hx | hx
    · cases hmax : listMaxNV vs with
      | none => simp [listMaxNV, hmax] at hw; subst hw; subst hx; exact nvLeB_refl _
      | some u =>
        simp [listMaxNV, hmax] at hw
        subst hw; subst hx
        exact left_le_maxNV _ _
    · cases hmax : listMaxNV vs with
      | none => rw [listMaxNV_none hmax] at hx; simp at hx
      | some u =>
        simp [listMaxNV, hmax] at hw
        subst hw
        exact nvLeB_trans (ih hmax x hx) (right_le_maxNV v u)

lemma listMinNV_mem {l : List NumVal} {w : NumVal} (hw : listMinNV l = some w) : w ∈ l := by
  induction l generalizing w with
  | nil => simp [listMinNV] at hw
  | cons v vs ih =>
    cases hmin : listMinNV vs with
    | none => simp [listMinNV, hmin] at hw; simp [hw]
    | some u =>
      simp [listMinNV, hmin] at hw
      rw [← hw]
      unfold minNV
      by_cases h : nvLeB v u = true
      · simp [h]
      · simp [h]; exact Or.inr (ih hmin)

lemma listMaxNV_mem {l : List NumVal} {w : NumVal} (hw : listMaxNV l = some w) : w ∈ l := by
  induction l generalizing w with
  | nil => simp [listMaxNV] at hw
  | cons v vs ih =>
    cases hmax : listMaxNV vs with
    | none => simp [listMaxNV, hmax] at hw; simp [hw]
    | some u =>
      simp [listMaxNV, hmax] at hw
      rw [← hw]
      unfold maxNV
      by_cases h : nvLeB v u = true
      · simp [h]; exact Or.inr (ih hmax)
      · simp [h]

lemma listMinNV_isSome {l : List NumVal} (hl : l ≠ []) : ∃ w, listMinNV l = some w := by
  cases l with
  | nil => exact absurd rfl hl
  | cons v vs =>
    cases hmin : listMinNV vs with
    | none => exact ⟨v, by simp [listMinNV, hmin]⟩
    | some u => exact ⟨minNV v u, by simp [listMinNV, hmin]⟩

lemma listMaxNV_isSome {l : List NumVal} (hl : l ≠ []) : ∃ w, listMaxNV l = some w := by
  cases l with
  | nil => exact absurd rfl hl
  | cons v vs =>
    cases hmax : listMaxNV vs with
    | none => exact ⟨v, by simp [listMaxNV, hmax]⟩
    | some u => exact ⟨maxNV v u, by simp [listMaxNV, hmax]⟩

/- ### Generic list helpers -/

lemma getD_map_of_lt {α β : Type} (f : α → β) (l : List α) (i : Nat) (d : β) (d' : α)
    (h : i < l.length) : (l.map f).getD i d = f (l.getD i d') := by
  induction l generalizing i with
  | nil => simp at h
  | cons x xs ih =>
    cases i with
    | zero => simp
    | succ j => simpa using ih j (by simpa using h)

lemma getD_mem_of_lt {α : Type} (l : List α) (i : Nat) (d : α) (h : i < l.length) :
    l.getD i d ∈ l := by
  induction l generalizing i with
  | nil => simp at h
  | cons x xs ih =>
    cases i with
    | zero => simp
    | succ j => simpa using Or.inr (ih j (by simpa using h))

lemma getD_range_of_lt (n i : Nat) (h : i < n) : (List.range n).getD i 0 = i := by
  rw [List.getD_eq_getElem _ _ (by simpa using h)]
  simp

lemma getD_false_of_ge {l : List Bool} {i : Nat} (h : l.length ≤ i) :
    l.getD i false = false := by
  induction l generalizing i with
  | nil => simp
  | cons x xs ih =>
    cases i with
    | zero => simp at h
    | succ j => simpa using ih (by simpa using h)

lemma zipWith_and_getD (a b : List Bool) (i : Nat) :
    (a.zipWith (fun x y => x && y) b).getD i false
      = (a.getD i false && b.getD i false) := by
  induction a generalizing b i with
  | nil => simp
  | cons x xs ih =>
    cases b with
    | nil => simp
    | cons y ys =>
      cases i with
      | zero => simp
      | succ j => simpa using ih ys j

lemma foldl_and_getD (ms : List (List Bool)) (m : List Bool) (i : Nat) :
    (ms.foldl (fun a b => a.zipWith (fun x y => x && y) b) m).getD i false
      = (m.getD i false && ms.all (fun x => x.getD i false)) := by
  induction ms generalizing m with
  | nil => simp
  | cons x ms ih =>
    rw [List.foldl_cons, ih, zipWith_and_getD]
    simp [Bool.and_assoc]

lemma foldl_and_length (ms : List (List Bool)) (m : List Bool) (n : Nat)
    (hm : m.length = n) (hms : ∀ x ∈ ms, x.length = n) :
    (ms.foldl (fun a b => a.zipWith (fun x y => x && y) b) m).length = n := by
  induction ms generalizing m with
  | nil => simpa using hm
  | cons x ms ih =>
    rw [List.foldl_cons]
    refine ih _ ?_ (fun y hy => hms y (List.mem_cons_of_mem _ hy))
    rw [List.length_zipWith, hm, hms x (List.mem_cons_self _ _)]
    simp

lemma countTrue_replicate (n : Nat) : countTrue (List.replicate n true) = n := by
  induction n with
  | zero => rfl
  | succ k ih => simp only [List.replicate, countTrue, if_true, ih]; omega

lemma maskFilter_replicate_true (l : List Cell) (n : Nat) (h : l.length = n) :
    maskFilter (List.replicate n true) l = l := by
  induction l generalizing n with
  | nil => cases n <;> simp [maskFilter, List.replicate]
  | cons x xs ih =>
    cases n with
    | zero => simp at h
    | succ k => simpa [List.replicate, maskFilter] using ih k (by simpa using h)

lemma maskFilter_sublist (m : List Bool) (l : List Cell) : List.Sublist (maskFilter m l) l := by
  induction m generalizing l with
  | nil => cases l <;> simp [maskFilter]
  | cons b bs ih =>
    cases l with
    | nil => simp [maskFilter]
    | cons x xs =>
      by_cases hb : b = true
      · subst hb
        simpa [maskFilter] using List.Sublist.cons₂ x (ih xs)
      · rw [Bool.not_eq_true] at hb
        subst hb
        simpa [maskFilter] using List.Sublist.cons x (ih xs)

lemma maskFilter_length (m : List Bool) (l : List Cell) (h : m.length = l.length) :
    (maskFilter m l).length = countTrue m := by
  induction m generalizing l with
  | nil => simp [maskFilter, countTrue]
  | cons b bs ih =>
    cases l with
    | nil => simp at h
    | cons x xs =>
      by_cases hb : b = true
      · subst hb
        simp only [maskFilter, countTrue, if_true, List.length_cons,
          ih xs (by simpa using h)]
        omega
      · rw [Bool.not_eq_true] at hb
        subst hb
        simpa [maskFilter, countTrue] using ih xs (by simpa using h)

lemma maskFilter_pred (K : List Bool) (l : List Cell) (pred : Cell → Bool)
    (h : ∀ i, K.getD i false = true → (l.map pred).getD i false = true) :
    ∀ x ∈ maskFilter K l, pred x = true := by
  induction K generalizing l with
  | nil => intro x hx; cases l <;> simp [maskFilter] at hx
  | cons b bs ih =>
    intro x hx
    cases l with
    | nil => simp [maskFilter] at hx
    | cons y ys =>
      by_cases hb : b = true
      · subst hb
        simp [maskFilter] at hx
        rcases hx with hx | hx
        · subst hx; simpa using h 0 (by simp)
        · exact ih ys (fun i hi => by simpa using h (i + 1) (by simpa using hi)) x hx
      · rw [Bool.not_eq_true] at hb
        subst hb
        simp [maskFilter] at hx
        exact ih ys (fun i hi => by simpa using h (i + 1) (by simpa using hi)) x hx

/- ### Positions a mask keeps -/

/-- Indices of the true bits of a mask, in order. -/
def keptIdx : List Bool → List Nat
  | [] => []
  | b :: bs => if b then 0 :: (keptIdx bs).map (· + 1) else (keptIdx bs).map (· + 1)

lemma keptIdx_length (K : List Bool) : (keptIdx K).length = countTrue K := by
  induction K with
  | nil => rfl
  | cons b bs ih =>
    by_cases hb : b = true
    · subst hb; simp [keptIdx, countTrue, ih]; omega
    · rw [Bool.not_eq_true] at hb; subst hb; simp [keptIdx, countTrue, ih]

lemma keptIdx_spec (K : List Bool) :
    ∀ i ∈ keptIdx K, i < K.length ∧ K.getD i false = true := by
  induction K with
  | nil => simp [keptIdx]
  | cons b bs ih =>
    intro i hi
    by_cases hb : b = true
    · subst hb
      simp [keptIdx] at hi
      rcases hi with hi | hi
      · subst hi; simp
      · rcases hi with ⟨j, hj, hji⟩
        subst hji
        rcases ih j hj with ⟨h1, h2⟩
        exact ⟨by simpa using h1, by simpa using h2⟩
    · rw [Bool.not_eq_true] at hb
      subst hb
      simp [keptIdx] at hi
      rcases hi with ⟨j, hj, hji⟩
      subst hji
      rcases ih j hj with ⟨h1, h2⟩
      exact ⟨by simpa using h1, by simpa using h2⟩

lemma maskFilter_eq_keptIdx_map (K : List Bool) (l : List Cell) (h : K.length = l.length) :
    maskFilter K l = (keptIdx K).map (fun i => l.getD i Cell.missing) := by
  induction K generalizing l with
  | nil => cases l <;> simp [maskFilter, keptIdx]
  | cons b bs ih =>
    cases l with
    | nil => simp at h
    | cons x xs =>
      by_cases hb : b = true
      · subst hb
        simp [maskFilter, keptIdx, ih xs (by simpa using h), List.map_map]
      · rw [Bool.not_eq_true] at hb
        subst hb
        simp [maskFilter, keptIdx, ih xs (by simpa using h), List.map_map]

/- ### Shape of the mask list -/

lemma wf_col_length {df : Table} (hwf : wfB df = true) {c : Col} (hc : c ∈ df.cols) :
    c.data.length = df.nrows := by
  have := List.all_eq_true.mp hwf c hc
  simpa using this

lemma colMask_shape (p : Params) (c : Col) :
    ∀ m ∈ colMask p c, ∃ f, m = c.data.map f := by
  intro m hm
  unfold colMask at hm
  split at hm
  · split at hm
    · split at hm
      · simp at hm
      · simp at hm; exact ⟨_, hm⟩
    · split at hm
      · simp at hm
      · simp at hm; exact ⟨_, hm⟩
  · split at hm
    · split at hm
      · simp at hm; exact ⟨_, hm⟩
      · simp at hm
    · split at hm
      · split at hm
        · simp at hm
        · simp at hm; exact ⟨_, hm⟩
        · simp at hm; exact ⟨_, hm⟩
      · simp at hm

lemma collectMasks_mem (p : Params) (cs : List Col) (m : List Bool) :
    m ∈ collectMasks p cs ↔ ∃ c ∈ cs, m ∈ colMask p c := by
  induction cs with
  | nil => simp [collectMasks]
  | cons c cs ih =>
    simp only [collectMasks, List.mem_append, ih, List.mem_cons]
    constructor
    · rintro (h | ⟨c', hc', hm'⟩)
      · exact ⟨c, Or.inl rfl, h⟩
      · exact ⟨c', Or.inr hc', hm'⟩
    · rintro ⟨c', hc' | hc', hm'⟩
      · subst hc'; exact Or.inl hm'
      · exact Or.inr ⟨c', hc', hm'⟩

lemma searchMask_shape (df : Table) (p : Params) :
    ∀ m ∈ searchMask df p, m = (List.range df.nrows).map (fun i =>
      (strCols df).any (fun c => containsCI p.search (cellStr (c.data.getD i Cell.missing)))) := by
  intro m hm
  unfold searchMask at hm
  split at hm
  · simp at hm
  · split at hm
    · simp at hm
    · simp only [List.mem_singleton] at hm; exact hm

lemma buildMasks_length {df : Table} {p : Params} (hwf : wfB df = true) :
    ∀ m ∈ buildMasks df p, m.length = df.nrows := by
  intro m hm
  rcases List.mem_append.mp hm with hm | hm
  · rw [searchMask_shape df p m hm]
    simp
  · rcases (collectMasks_mem p df.cols m).mp hm with ⟨c, hc, hmc⟩
    rcases colMask_shape p c m hmc with ⟨f, hf⟩
    rw [hf, List.length_map, wf_col_length hwf hc]

/- ### The combined mask and `build_filters` -/

lemma keepMask_getD {df : Table} {p : Params} {i : Nat} (hi : i < df.nrows) :
    (keepMask df p).getD i false = rowKept df p i := by
  unfold keepMask
  rw [getD_map_of_lt _ _ _ _ 0 (by simpa using hi), getD_range_of_lt _ _ hi]

lemma keepMask_length (df : Table) (p : Params) : (keepMask df p).length = df.nrows := by
  simp [keepMask]

lemma rowKept_mask {df : Table} {p : Params} {m : List Bool} {i : Nat}
    (hm : m ∈ buildMasks df p) (hk : rowKept df p i = true) : m.getD i false = true :=
  List.all_eq_true.mp hk m hm

lemma applyMask_true (df : Table) (hwf : wfB df = true) :
    applyMask (List.replicate df.nrows true) df = df := by
  unfold applyMask
  rw [countTrue_replicate]
  have hc : df.cols.map
      (fun c => Col.mk c.name c.dtype (maskFilter (List.replicate df.nrows true) c.data))
        = df.cols.map id := by
    apply List.map_congr_left
    intro c hc
    rw [maskFilter_replicate_true _ _ (wf_col_length hwf hc)]
    rfl
  rw [hc, List.map_id]

lemma build_filters_eq_applyMask (df : Table) (p : Params) (hwf : wfB df = true) :
    build_filters df p = applyMask (keepMask df p) df := by
  unfold build_filters
  cases h : buildMasks df p with
  | nil =>
    have hk : keepMask df p = List.replicate df.nrows true := by
      unfold keepMask rowKept
      simp only [h, List.all_nil]
      rw [List.map_const', List.length_range]
    rw [hk, applyMask_true df hwf]
  | cons m ms =>
    have hlen : ∀ x ∈ buildMasks df p, x.length = df.nrows := buildMasks_length hwf
    have hmlen : m.length = df.nrows := hlen m (by rw [h]; exact List.mem_cons_self _ _)
    have hmslen : ∀ x ∈ ms, x.length = df.nrows := fun x hx =>
      hlen x (by rw [h]; exact List.mem_cons_of_mem _ hx)
    have hfold : ms.foldl (fun a b => a.zipWith (fun x y => x && y) b) m = keepMask df p := by
      apply List.ext_getElem
      · rw [foldl_and_length ms m df.nrows hmlen hmslen, keepMask_length]
      · intro i h1 h2
        have hi : i < df.nrows := by
          rw [foldl_and_length ms m df.nrows hmlen hmslen] at h1
          exact h1
        rw [← List.getD_eq_getElem _ false h1, ← List.getD_eq_getElem _ false h2,
          foldl_and_getD, keepMask_getD hi]
        unfold rowKept
        rw [h, List.all_cons]
    show applyMask (ms.foldl (fun a b => a.zipWith (fun x y => x && y) b) m) df
      = applyMask (keepMask df p) df
    rw [hfold]

lemma eq_replicate_true {m : List Bool} {n : Nat} (hlen : m.length = n)
    (hall : ∀ b ∈ m, b = true) : m = List.replicate n true := by
  induction m generalizing n with
  | nil => simp at hlen; subst hlen; rfl
  | cons b bs ih =>
    cases n with
    | zero => simp at hlen
    | succ k =>
      rw [List.replicate_succ, hall b (List.mem_cons_self _ _),
        ih (by simpa using hlen) (fun x hx => hall x (List.mem_cons_of_mem _ hx))]

lemma zipWith_and_replicate (n : Nat) :
    (List.replicate n true).zipWith (fun x y => x && y) (List.replicate n true)
      = List.replicate n true := by
  induction n with
  | zero => rfl
  | succ k ih => simp [List.replicate_succ, ih]

lemma foldl_and_replicate (ms : List (List Bool)) (n : Nat)
    (hms : ∀ x ∈ ms, x = List.replicate n true) :
    ms.foldl (fun a b => a.zipWith (fun x y => x && y) b) (List.replicate n true)
      = List.replicate n true := by
  induction ms with
  | nil => rfl
  | cons x ms ih =>
    rw [List.foldl_cons, hms x (List.mem_cons_self _ _), zipWith_and_replicate]
    exact ih (fun y hy => hms y (List.mem_cons_of_mem _ hy))

lemma build_filters_of_allTrue (df : Table) (p : Params) (hwf : wfB df = true)
    (hall : ∀ m ∈ buildMasks df p, ∀ b ∈ m, b = true) :
    build_filters df p = df := by
  unfold build_filters
  cases h : buildMasks df p with
  | nil => rfl
  | cons m ms =>
    have hlen : ∀ x ∈ buildMasks df p, x.length = df.nrows := buildMasks_length hwf
    have hrep : ∀ x ∈ buildMasks df p, x = List.replicate df.nrows true := fun x hx =>
      eq_replicate_true (hlen x hx) (hall x hx)
    have hm : m = List.replicate df.nrows true :=
      hrep m (by rw [h]; exact List.mem_cons_self _ _)
    have hms : ∀ x ∈ ms, x = List.replicate df.nrows true := fun x hx =>
      hrep x (by rw [h]; exact List.mem_cons_of_mem _ hx)
    show applyMask (ms.foldl (fun a b => a.zipWith (fun x y => x && y) b) m) df = df
    rw [hm, foldl_and_replicate ms df.nrows hms, applyMask_true df hwf]

/- ### Survivors of the first pass -/

lemma survivors_pred (df : Table) (p : Params) (_hwf : wfB df = true) {c : Col}
    (hc : c ∈ df.cols) {pred : Cell → Bool} (hmask : c.data.map pred ∈ colMask p c) :
    ∀ x ∈ maskFilter (keepMask df p) c.data, pred x = true := by
  have hmem : c.data.map pred ∈ buildMasks df p :=
    List.mem_append.mpr (Or.inr ((collectMasks_mem _ _ _).mpr ⟨c, hc, hmask⟩))
  apply maskFilter_pred
  intro i hKi
  by_cases hi : i < df.nrows
  · rw [keepMask_getD hi] at hKi
    exact rowKept_mask hmem hKi
  · rw [getD_false_of_ge (by rw [keepMask_length]; omega)] at hKi
    exact absurd hKi (by simp)

lemma wfB_applyMask (df : Table) (m : List Bool) (hwf : wfB df = true)
    (hm : m.length = df.nrows) : wfB (applyMask m df) = true := by
  unfold wfB applyMask
  rw [List.all_eq_true]
  intro c' hc'
  rcases List.mem_map.mp hc' with ⟨c, hc, rfl⟩
  have : m.length = c.data.length := by rw [hm, wf_col_length hwf hc]
  simp [maskFilter_length m c.data this, this.symm, hm]

lemma dedup_length_le_of_sublist {l l' : List Cell} (h : List.Sublist l l') :
    l.dedup.length ≤ l'.dedup.length := by
  have hsub : l.toFinset ⊆ l'.toFinset := by
    intro x hx
    rw [List.mem_toFinset] at hx ⊢
    exact h.subset hx
  have h1 := List.card_toFinset l
  have h2 := List.card_toFinset l'
  have h3 := Finset.card_le_card hsub
  omega

lemma nunique_maskFilter_le (K : List Bool) (data : List Cell) :
    nunique (maskFilter K data) ≤ nunique data :=
  dedup_length_le_of_sublist (List.Sublist.filter _ (maskFilter_sublist K data))

lemma colVals_maskFilter_sublist (K : List Bool) (data : List Cell) :
    List.Sublist (colVals (maskFilter K data)) (colVals data) :=
  List.Sublist.filterMap numValQ (maskFilter_sublist K data)

lemma mem_colVals_of_getD {data : List Cell} {i : Nat} {v : NumVal} (hi : i < data.length)
    (hv : numValQ (data.getD i Cell.missing) = some v) : v ∈ colVals data :=
  List.mem_filterMap.mpr ⟨_, getD_mem_of_lt data i _ hi, hv⟩

lemma mem_colVals_of_mem {data : List Cell} {x : Cell} {v : NumVal} (hx : x ∈ data)
    (hv : numValQ x = some v) : v ∈ colVals data :=
  List.mem_filterMap.mpr ⟨_, hx, hv⟩

lemma colVals_fin_of_noInf {data : List Cell}
    (h : data.all (fun x => !(numValQ x == some NumVal.pinf)
          && !(numValQ x == some NumVal.ninf)) = true) :
    ∀ v ∈ colVals data, ∃ q, v = NumVal.fin q := by
  intro v hv
  rcases List.mem_filterMap.mp hv with ⟨x, hx, hvx⟩
  have hx' := List.all_eq_true.mp h x hx
  simp at hx'
  cases v with
  | fin q => exact ⟨q, rfl⟩
  | pinf => rw [hvx] at hx'; simp at hx'
  | ninf => rw [hvx] at hx'; simp at hx'

lemma bounds_fin_of_noInf {data : List Cell} (hne : colVals data ≠ [])
    (h : data.all (fun x => !(numValQ x == some NumVal.pinf)
          && !(numValQ x == some NumVal.ninf)) = true) :
    (∃ a, colMin data = some (NumVal.fin a)) ∧ (∃ b, colMax data = some (NumVal.fin b)) := by
  rcases listMinNV_isSome hne with ⟨w, hw⟩
  rcases listMaxNV_isSome hne with ⟨w', hw'⟩
  rcases colVals_fin_of_noInf h w (listMinNV_mem hw) with ⟨a, ha⟩
  rcases colVals_fin_of_noInf h w' (listMaxNV_mem hw') with ⟨b, hb⟩
  exact ⟨⟨a, by rw [colMin, hw, ha]⟩, ⟨b, by rw [colMax, hw', hb]⟩⟩

lemma contains_true_iff_mem (l : List String) (s : String) :
    l.contains s = true ↔ s ∈ l := by
  unfold List.contains
  exact List.elem_iff

/- ### Membership of the sorted group keys -/

lemma insertCell_mem (x : Cell) (l : List Cell) (a : Cell) :
    a ∈ insertCell x l ↔ a = x ∨ a ∈ l := by
  induction l with
  | nil => simp [insertCell]
  | cons y ys ih =>
    unfold insertCell
    by_cases h : cellLeB x y = true
    · simp [h]
    · simp [h, ih]
      tauto

lemma sortCells_mem (l : List Cell) (a : Cell) : a ∈ sortCells l ↔ a ∈ l := by
  induction l with
  | nil => simp [sortCells]
  | cons x xs ih =>
    unfold sortCells
    rw [insertCell_mem, ih]
    simp

lemma groupKeys_mem (df : Table) (g : String) (x : Cell) :
    x ∈ groupKeys df g ↔ (¬ x = Cell.missing ∧ x ∈ colData df g) := by
  unfold groupKeys
  rw [sortCells_mem, List.mem_dedup, List.mem_filter]
  simp [and_comm]

/- ### Narrowing a filter specification -/

/-- Narrowing of a numeric range parameter: an untouched slider may be
narrowed to any chosen pair, a chosen pair only to a nested pair. -/
def rangeNarrowsB : Option (Rat × Rat) → Option (Rat × Rat) → Bool
  | none, none => true
  | none, some _ => true
  | some _, none => false
  | some r, some r' => decide (r.1 ≤ r'.1) && decide (r'.2 ≤ r.2)

/-- Parameter narrowing for one column: the selection shrinks (but stays
non-empty unless it already was), the substring and boolean choices are
unchanged, and the numeric range shrinks. -/
def paramNarrowsB (q q' : ColParams) : Bool :=
  q'.selected.all (fun s => q.selected.contains s) &&
  (q.selected.isEmpty || !(q'.selected.isEmpty)) &&
  (q'.contains == q.contains) &&
  rangeNarrowsB q.range q'.range &&
  (q'.boolChoice == q.boolChoice)

lemma isNum_of_isBool {d : Dtype} (h : isBoolDtype d = true) : isNumDtype d = true := by
  cases d <;> simp_all [isBoolDtype, isNumDtype]

/- ### Branch equations for `colMask` -/

lemma betweenB_some {l h : Rat} {x : Cell} {v : NumVal} (hv : numValQ x = some v) :
    betweenB l h x = (nvLeB (NumVal.fin l) v && nvLeB v (NumVal.fin h)) := by
  unfold betweenB
  rw [hv]

lemma betweenB_none {l h : Rat} {x : Cell} (hv : numValQ x = none) :
    betweenB l h x = false := by
  unfold betweenB
  rw [hv]

lemma colMask_cat_empty (p : Params) (c : Col) (hcat : isCatDtype c.dtype = true)
    (hn : nunique c.data ≤ 40) (hsel : (p.col c.name).selected.isEmpty = true) :
    colMask p c = [] := by
  unfold colMask
  rw [if_pos hcat, if_pos hn, if_pos hsel]

lemma colMask_cat_sel (p : Params) (c : Col) (hcat : isCatDtype c.dtype = true)
    (hn : nunique c.data ≤ 40) (hsel : (p.col c.name).selected.isEmpty = false) :
    colMask p c
      = [c.data.map (fun x => (p.col c.name).selected.contains (cellStr x))] := by
  unfold colMask
  rw [if_pos hcat, if_pos hn, if_neg (by simp [hsel])]

lemma colMask_sub_empty (p : Params) (c : Col) (hcat : isCatDtype c.dtype = true)
    (hn : ¬ nunique c.data ≤ 40) (hcon : ((p.col c.name).contains == "") = true) :
    colMask p c = [] := by
  unfold colMask
  rw [if_pos hcat, if_neg hn, if_pos hcon]

lemma colMask_sub (p : Params) (c : Col) (hcat : isCatDtype c.dtype = true)
    (hn : ¬ nunique c.data ≤ 40) (hcon : ((p.col c.name).contains == "") = false) :
    colMask p c
      = [c.data.map (fun x => containsCI (p.col c.name).contains (cellStr x))] := by
  unfold colMask
  rw [if_pos hcat, if_neg hn, if_neg (by simp [hcon])]

lemma colMask_num (p : Params) (c : Col) (hcat : isCatDtype c.dtype = false)
    (hnum : isNumDtype c.dtype = true) {a b : Rat}
    (hmin : colMin c.data = some (NumVal.fin a))
    (hmax : colMax c.data = some (NumVal.fin b)) :
    colMask p c = [c.data.map (betweenB (((p.col c.name).range.getD (a, b)).1)
      (((p.col c.name).range.getD (a, b)).2))] := by
  unfold colMask
  rw [if_neg (by simp [hcat]), if_pos hnum, hmin, hmax]

lemma colMask_num_skip (p : Params) (c : Col) (hcat : isCatDtype c.dtype = false)
    (hnum : isNumDtype c.dtype = true)
    (hbad : ∀ a b : Rat, ¬(colMin c.data = some (NumVal.fin a)
      ∧ colMax c.data = some (NumVal.fin b))) :
    colMask p c = [] := by
  unfold colMask
  rw [if_neg (by simp [hcat]), if_pos hnum]
  cases hmin : colMin c.data with
  | none =>
    cases hmax : colMax c.data with
    | none => rfl
    | some w' => cases w' <;> rfl
  | some w =>
    cases w with
    | pinf =>
      cases hmax : colMax c.data with
      | none => rfl
      | some w' => cases w' <;> rfl
    | ninf =>
      cases hmax : colMax c.data with
      | none => rfl
      | some w' => cases w' <;> rfl
    | fin a =>
      cases hmax : colMax c.data with
      | none => rfl
      | some w' =>
        cases w' with
        | fin b => exact absurd ⟨hmin, hmax⟩ (hbad a b)
        | pinf => rfl
        | ninf => rfl

lemma colMask_other (p : Params) (c : Col) (hcat : isCatDtype c.dtype = false)
    (hnum : isNumDtype c.dtype = false) : colMask p c = [] := by
  have hbool : isBoolDtype c.dtype = false := by
    cases hb : isBoolDtype c.dtype
    · rfl
    · rw [isNum_of_isBool hb] at hnum
      exact absurd hnum (by simp)
  unfold colMask
  rw [if_neg (by simp [hcat]), if_neg (by simp [hnum]), if_neg (by simp [hbool])]

lemma colMask_mono (p p' : Params) (c : Col)
    (hq : paramNarrowsB (p.col c.name) (p'.col c.name) = true) (i : Nat)
    (h' : ∀ m' ∈ colMask p' c, m'.getD i false = true) :
    ∀ m ∈ colMask p c, m.getD i false = true := by
  intro m hm
  simp only [paramNarrowsB, Bool.and_eq_true] at hq
  obtain ⟨⟨⟨⟨h1, h2⟩, h3⟩, h4⟩, h5⟩ := hq
  have h3eq : (p'.col c.name).contains = (p.col c.name).contains := beq_iff_eq.mp h3
  by_cases hcat : isCatDtype c.dtype = true
  · by_cases hn : nunique c.data ≤ 40
    · cases hsel : (p.col c.name).selected.isEmpty with
      | true => rw [colMask_cat_empty p c hcat hn hsel] at hm; simp at hm
      | false =>
        have hsel' : (p'.col c.name).selected.isEmpty = false := by
          rw [hsel] at h2
          simpa using h2
        rw [colMask_cat_sel p c hcat hn hsel, List.mem_singleton] at hm
        subst hm
        have h'm : (c.data.map
            (fun x => (p'.col c.name).selected.contains (cellStr x))).getD i false = true :=
          h' _ (by rw [colMask_cat_sel p' c hcat hn hsel']; exact List.mem_singleton.mpr rfl)
        by_cases hi : i < c.data.length
        · rw [getD_map_of_lt _ _ _ _ Cell.missing hi] at h'm ⊢
          rw [contains_true_iff_mem] at h'm
          exact List.all_eq_true.mp h1 _ h'm
        · rw [getD_false_of_ge (by simp only [List.length_map]; omega)] at h'm
          exact absurd h'm (by simp)
    · cases hcon : ((p.col c.name).contains == "") with
      | true => rw [colMask_sub_empty p c hcat hn hcon] at hm; simp at hm
      | false =>
        have hcon' : ((p'.col c.name).contains == "") = false := by rw [h3eq]; exact hcon
        rw [colMask_sub p c hcat hn hcon, List.mem_singleton] at hm
        subst hm
        have h'm : (c.data.map
            (fun x => containsCI (p'.col c.name).contains (cellStr x))).getD i false = true :=
          h' _ (by rw [colMask_sub p' c hcat hn hcon']; exact List.mem_singleton.mpr rfl)
        rw [h3eq] at h'm
        exact h'm
  · rw [Bool.not_eq_true] at hcat
    by_cases hnum : isNumDtype c.dtype = true
    · by_cases hfin : ∃ a b : Rat, colMin c.data = some (NumVal.fin a)
        ∧ colMax c.data = some (NumVal.fin b)
      · rcases hfin with ⟨a, b, hmin, hmax⟩
        rw [colMask_num p c hcat hnum hmin hmax, List.mem_singleton] at hm
        subst hm
        have h'm : (c.data.map (betweenB (((p'.col c.name).range.getD (a, b)).1)
            (((p'.col c.name).range.getD (a, b)).2))).getD i false = true :=
          h' _ (by rw [colMask_num p' c hcat hnum hmin hmax]; exact List.mem_singleton.mpr rfl)
        by_cases hi : i < c.data.length
        · rw [getD_map_of_lt _ _ _ _ Cell.missing hi] at h'm ⊢
          cases hnv : numValQ (c.data.getD i Cell.missing) with
          | none =>
            rw [betweenB_none hnv] at h'm
            exact absurd h'm (by simp)
          | some v =>
            rw [betweenB_some hnv] at h'm ⊢
            rw [Bool.and_eq_true] at h'm
            have hvm := mem_colVals_of_getD hi hnv
            have hminv : nvLeB (NumVal.fin a) v = true := listMinNV_le hmin v hvm
            have hmaxv : nvLeB v (NumVal.fin b) = true := le_listMaxNV hmax v hvm
            cases hr : (p.col c.name).range with
            | none =>
              rw [Option.getD_none]
              rw [hminv, hmaxv]
              rfl
            | some r =>
              cases hr' : (p'.col c.name).range with
              | none => rw [hr, hr'] at h4; simp [rangeNarrowsB] at h4
              | some r' =>
                rw [hr, hr'] at h4
                simp only [rangeNarrowsB, Bool.and_eq_true, decide_eq_true_eq] at h4
                rw [hr', Option.getD_some] at h'm
                rw [Option.getD_some]
                have hl : nvLeB (NumVal.fin r.1) (NumVal.fin r'.1) = true := by
                  simpa [nvLeB] using h4.1
                have hh : nvLeB (NumVal.fin r'.2) (NumVal.fin r.2) = true := by
                  simpa [nvLeB] using h4.2
                rw [nvLeB_trans hl h'm.1, nvLeB_trans h'm.2 hh]
                rfl
        · rw [getD_false_of_ge (by simp only [List.length_map]; omega)] at h'm
          exact absurd h'm (by simp)
      · rw [colMask_num_skip p c hcat hnum (by
          intro a b hab
          exact hfin ⟨a, b, hab.1, hab.2⟩)] at hm
        simp at hm
    · rw [Bool.not_eq_true] at hnum
      rw [colMask_other p c hcat hnum] at hm
      simp at hm

lemma isEmpty_true_iff (l : List Col) : l.isEmpty = true ↔ l = [] := by
  cases l <;> simp

lemma strCols_applyMask (m : List Bool) (df : Table) :
    strCols (applyMask m df)
      = (strCols df).map (fun c => Col.mk c.name c.dtype (maskFilter m c.data)) := by
  unfold strCols applyMask
  induction df.cols with
  | nil => rfl
  | cons c cs ih =>
    simp only [List.map_cons, List.filter_cons]
    by_cases h : (c.dtype == Dtype.obj) = true
    · simp only [h, if_true, List.map_cons, ih]
    · rw [Bool.not_eq_true] at h
      simp only [h, Bool.false_eq_true, if_false, ih]

lemma colMask_allTrue_after (df : Table) (p : Params) (hwf : wfB df = true)
    (c : Col) (hc : c ∈ df.cols)
    (hinf : isNumDtype c.dtype = true →
      c.data.all (fun x => !(numValQ x == some NumVal.pinf)
        && !(numValQ x == some NumVal.ninf)) = true)
    (hselh : isCatDtype c.dtype = true → ¬ nunique c.data ≤ 40 →
      (p.col c.name).selected.isEmpty = true) :
    ∀ m ∈ colMask p (Col.mk c.name c.dtype (maskFilter (keepMask df p) c.data)),
      ∀ b ∈ m, b = true := by
  set c2 : Col := Col.mk c.name c.dtype (maskFilter (keepMask df p) c.data) with hc2
  intro m hm b hb
  have hcat2 : isCatDtype c2.dtype = isCatDtype c.dtype := rfl
  have hnum2 : isNumDtype c2.dtype = isNumDtype c.dtype := rfl
  by_cases hcat : isCatDtype c.dtype = true
  · by_cases hn' : nunique c2.data ≤ 40
    · cases hsel2 : (p.col c.name).selected.isEmpty with
      | true =>
        rw [colMask_cat_empty p c2 (hcat2 ▸ hcat) hn' hsel2] at hm
        simp at hm
      | false =>
        have hn : nunique c.data ≤ 40 := by
          by_contra hgt
          rw [hselh hcat hgt] at hsel2
          exact absurd hsel2 (by simp)
        rw [colMask_cat_sel p c2 (hcat2 ▸ hcat) hn' hsel2, List.mem_singleton] at hm
        subst hm
        rcases List.mem_map.mp hb with ⟨x, hx, hbx⟩
        have hsurv := @survivors_pred df p hwf c hc
          (fun x => (p.col c.name).selected.contains (cellStr x))
          (by rw [colMask_cat_sel p c hcat hn hsel2]; exact List.mem_singleton.mpr rfl)
        rw [← hbx]
        exact hsurv x hx
    · have hn : ¬ nunique c.data ≤ 40 := by
        intro hle
        exact hn' (le_trans (nunique_maskFilter_le (keepMask df p) c.data) hle)
      cases hcon : ((p.col c.name).contains == "") with
      | true =>
        rw [colMask_sub_empty p c2 (hcat2 ▸ hcat) hn' hcon] at hm
        simp at hm
      | false =>
        rw [colMask_sub p c2 (hcat2 ▸ hcat) hn' hcon, List.mem_singleton] at hm
        subst hm
        rcases List.mem_map.mp hb with ⟨x, hx, hbx⟩
        have hsurv := @survivors_pred df p hwf c hc
          (fun x => containsCI (p.col c.name).contains (cellStr x))
          (by rw [colMask_sub p c hcat hn hcon]; exact List.mem_singleton.mpr rfl)
        rw [← hbx]
        exact hsurv x hx
  · rw [Bool.not_eq_true] at hcat
    by_cases hnum : isNumDtype c.dtype = true
    · by_cases hfin' : ∃ a' b' : Rat, colMin c2.data = some (NumVal.fin a')
          ∧ colMax c2.data = some (NumVal.fin b')
      · rcases hfin' with ⟨a', b', hmin', hmax'⟩
        have hvals' : colVals c2.data ≠ [] := by
          intro hnil
          unfold colMin at hmin'
          rw [hnil] at hmin'
          simp [listMinNV] at hmin'
        have hvals : colVals c.data ≠ [] := by
          intro hnil
          have hsub : List.Sublist (colVals c2.data) (colVals c.data) :=
            colVals_maskFilter_sublist (keepMask df p) c.data
          rw [hnil] at hsub
          exact hvals' (List.sublist_nil.mp hsub)
        rcases bounds_fin_of_noInf hvals (hinf hnum) with ⟨⟨a, hmin⟩, ⟨b, hmax⟩⟩
        rw [colMask_num p c2 (hcat2 ▸ hcat) (hnum2 ▸ hnum) hmin' hmax',
          List.mem_singleton] at hm
        subst hm
        rcases List.mem_map.mp hb with ⟨x, hx, hbx⟩
        rw [← hbx]
        have hsurv := @survivors_pred df p hwf c hc
          (betweenB (((p.col c.name).range.getD (a, b)).1)
            (((p.col c.name).range.getD (a, b)).2))
          (by rw [colMask_num p c hcat hnum hmin hmax]; exact List.mem_singleton.mpr rfl)
        have hx1 := hsurv x hx
        cases hr : (p.col c.name).range with
        | none =>
          rw [hr] at hx1
          simp only [Option.getD_none] at hx1 ⊢
          cases hnv : numValQ x with
          | none =>
            rw [betweenB_none hnv] at hx1
            exact absurd hx1 (by simp)
          | some v =>
            have hvm : v ∈ colVals c2.data := mem_colVals_of_mem hx hnv
            rw [betweenB_some hnv]
            rw [listMinNV_le hmin' v hvm, le_listMaxNV hmax' v hvm]
            rfl
        | some r =>
          rw [hr] at hx1
          simp only [Option.getD_some] at hx1 ⊢
          exact hx1
      · rw [colMask_num_skip p c2 (hcat2 ▸ hcat) (hnum2 ▸ hnum)
          (fun a' b' hab => hfin' ⟨a', b', hab.1, hab.2⟩)] at hm
        simp at hm
    · rw [Bool.not_eq_true] at hnum
      rw [colMask_other p c2 (hcat2 ▸ hcat) (hnum2 ▸ hnum)] at hm
      simp at hm

lemma searchMask_allTrue_after (df : Table) (p : Params) (hwf : wfB df = true) :
    ∀ m ∈ searchMask (applyMask (keepMask df p) df) p, ∀ b ∈ m, b = true := by
  intro m hm b hb
  rw [searchMask_shape _ p m hm] at hb
  rcases List.mem_map.mp hb with ⟨j, hj, hbj⟩
  rw [List.mem_range] at hj
  subst hbj
  by_cases hs : (p.search == "") = true
  · unfold searchMask at hm
    rw [if_pos hs] at hm
    simp at hm
  · by_cases hsc : (strCols df).isEmpty = true
    · have hscV : (strCols (applyMask (keepMask df p) df)).isEmpty = true := by
        rw [strCols_applyMask, (isEmpty_true_iff _).mp hsc]
        rfl
      unfold searchMask at hm
      rw [if_neg hs, if_pos hscV] at hm
      simp at hm
    · have hM : (List.range df.nrows).map (fun i => (strCols df).any
          (fun c => containsCI p.search (cellStr (c.data.getD i Cell.missing))))
            ∈ buildMasks df p := by
        refine List.mem_append.mpr (Or.inl ?_)
        unfold searchMask
        rw [if_neg hs, if_neg hsc]
        exact List.mem_singleton.mpr rfl
      have hjK : j < (keptIdx (keepMask df p)).length := by
        rw [keptIdx_length]
        exact hj
      have himem : (keptIdx (keepMask df p)).getD j 0 ∈ keptIdx (keepMask df p) :=
        getD_mem_of_lt _ j 0 hjK
      rcases keptIdx_spec (keepMask df p) _ himem with ⟨hiK, hKi⟩
      have hKlen : (keepMask df p).length = df.nrows := keepMask_length df p
      have hi : (keptIdx (keepMask df p)).getD j 0 < df.nrows := by
        rw [hKlen] at hiK
        exact hiK
      have hkept : rowKept df p ((keptIdx (keepMask df p)).getD j 0) = true := by
        rw [← keepMask_getD hi]
        exact hKi
      have hM1 := rowKept_mask hM hkept
      rw [getD_map_of_lt _ _ _ _ 0 (by simpa using hi), getD_range_of_lt _ _ hi] at hM1
      rcases List.any_eq_true.mp hM1 with ⟨c, hcmem, hcpred⟩
      rw [strCols_applyMask]
      apply List.any_eq_true.mpr
      refine ⟨Col.mk c.name c.dtype (maskFilter (keepMask df p) c.data),
        List.mem_map.mpr ⟨c, hcmem, rfl⟩, ?_⟩
      have hcd : c ∈ df.cols := (List.mem_filter.mp hcmem).1
      have hclen : c.data.length = df.nrows := wf_col_length hwf hcd
      have heq : (maskFilter (keepMask df p) c.data).getD j Cell.missing
          = c.data.getD ((keptIdx (keepMask df p)).getD j 0) Cell.missing := by
        rw [maskFilter_eq_keptIdx_map (keepMask df p) c.data (by rw [hKlen, hclen])]
        rw [getD_map_of_lt _ _ _ _ 0 hjK]
      show containsCI p.search
        (cellStr ((maskFilter (keepMask df p) c.data).getD j Cell.missing)) = true
      rw [heq]
      exact hcpred

lemma searchMask_congr (df : Table) (p p' : Params) (h : p'.search = p.search) :
    searchMask df p' = searchMask df p := by
  unfold searchMask
  rw [h]

lemma countTrue_le_of_pointwise (a b : List Bool) (hlen : a.length = b.length)
    (h : ∀ i, b.getD i false = true → a.getD i false = true) :
    countTrue b ≤ countTrue a := by
  induction a generalizing b with
  | nil =>
    cases b with
    | nil => exact le_refl _
    | cons y ys => simp at hlen
  | cons x xs ih =>
    cases b with
    | nil => simp at hlen
    | cons y ys =>
      have htail : countTrue ys ≤ countTrue xs :=
        ih ys (by simpa using hlen) (fun i hi => by
          simpa using h (i + 1) (by simpa using hi))
      cases hy : y with
      | true =>
        have hx : x = true := by simpa using h 0 (by simp [hy])
        subst hx
        simpa [countTrue, hy] using htail
      | false =>
        cases x <;> simp [countTrue] <;> omega


/- ### Classifier equations -/

lemma isCat_false_of_isNum {d : Dtype} (h : isNumDtype d = true) :
    isCatDtype d = false := by
  cases d <;> simp_all [isNumDtype, isCatDtype]

lemma classify_num (c : Col) (hcat : isCatDtype c.dtype = false)
    (hnum : isNumDtype c.dtype = true) {a b : Rat}
    (hmin : colMin c.data = some (NumVal.fin a))
    (hmax : colMax c.data = some (NumVal.fin b)) :
    classify c = FilterKind.numRange := by
  unfold classify
  rw [if_neg (by simp [hcat]), if_pos hnum, hmin, hmax]

lemma classify_num_skip (c : Col) (hcat : isCatDtype c.dtype = false)
    (hnum : isNumDtype c.dtype = true)
    (hbad : ∀ a b : Rat, ¬(colMin c.data = some (NumVal.fin a)
      ∧ colMax c.data = some (NumVal.fin b))) :
    classify c = FilterKind.skipCol := by
  unfold classify
  rw [if_neg (by simp [hcat]), if_pos hnum]
  cases hmin : colMin c.data with
  | none =>
    cases hmax : colMax c.data with
    | none => rfl
    | some w' => cases w' <;> rfl
  | some w =>
    cases w with
    | pinf =>
      cases hmax : colMax c.data with
      | none => rfl
      | some w' => cases w' <;> rfl
    | ninf =>
      cases hmax : colMax c.data with
      | none => rfl
      | some w' => cases w' <;> rfl
    | fin a =>
      cases hmax : colMax c.data with
      | none => rfl
      | some w' =>
        cases w' with
        | fin b => exact absurd ⟨hmin, hmax⟩ (hbad a b)
        | pinf => rfl
        | ninf => rfl

lemma rowKept_false_of_pred (df : Table) (p : Params) (hwf : wfB df = true) {c : Col}
    (hc : c ∈ df.cols) {pred : Cell → Bool}
    (hmask : c.data.map pred ∈ colMask p c) {i : Nat} (hi : i < df.nrows)
    (hp : pred (c.data.getD i Cell.missing) = false) : rowKept df p i = false := by
  cases hk : rowKept df p i with
  | false => rfl
  | true =>
    have hmem : c.data.map pred ∈ buildMasks df p :=
      List.mem_append.mpr (Or.inr ((collectMasks_mem p df.cols _).mpr ⟨c, hc, hmask⟩))
    have htrue := rowKept_mask hmem hk
    rw [getD_map_of_lt _ _ _ _ Cell.missing (by rw [wf_col_length hwf hc]; exact hi)] at htrue
    rw [hp] at htrue
    exact absurd htrue (by simp)

/- ### Hypothesis recorders for the corrected claims -/

/-- No numeric-dtype column holds an infinite value. -/
def noInfB (df : Table) : Bool :=
  df.cols.all (fun c => !(isNumDtype c.dtype) ||
    c.data.all (fun x => !(numValQ x == some NumVal.pinf)
      && !(numValQ x == some NumVal.ninf)))

/-- Every text column with more than 40 distinct values (classified
substring, so its multiselect widget never existed) carries an empty
multiselect parameter. -/
def substrSelEmptyB (df : Table) (p : Params) : Bool :=
  df.cols.all (fun c => !(isCatDtype c.dtype) || decide (nunique c.data ≤ 40) ||
    (p.col c.name).selected.isEmpty)

/-- All live text queries — the free-text search and every substring
parameter — are free of regex metacharacters, so the pandas regex
predicate is substring containment (`containsCI` is exact) and
`re.compile` cannot raise. -/
def literalQueriesB (df : Table) (p : Params) : Bool :=
  isLiteralPat p.search && df.cols.all (fun c => isLiteralPat (p.col c.name).contains)

/-- Every filter parameter is untouched: no free-text search, no selected
values, no substring, sliders at their defaults, boolean choice no-filter. -/
def allInactiveB (df : Table) (p : Params) : Bool :=
  (p.search == "") && df.cols.all (fun c =>
    (p.col c.name).selected.isEmpty && ((p.col c.name).contains == "") &&
    ((p.col c.name).range == none) && ((p.col c.name).boolChoice == BoolChoice.noFilter))

/-- Every numeric-dtype column with finite bounds holds only numeric
cells (no missing value). -/
def numNoMissingB (df : Table) : Bool :=
  df.cols.all (fun c => !(isNumDtype c.dtype) ||
    (match colMin c.data, colMax c.data with
     | some (NumVal.fin _), some (NumVal.fin _) =>
       c.data.all (fun x => (numValQ x).isSome)
     | _, _ => true))


/- ### Concrete instances for the claims -/

/-- A table whose numeric column has finite bounds and a missing value. -/
def tbl1 : Table :=
  ⟨3, [⟨"x", Dtype.numeric,
    [Cell.num (NumVal.fin 1), Cell.num (NumVal.fin 2), Cell.missing]⟩]⟩

/-- Untouched parameters: no search, every per-column widget at default. -/
def prmNone : Params := ⟨"", fun _ => inactive⟩

/-- A table with a string column, a numeric column and a boolean column,
none of whose numeric cells are missing. -/
def tbl1w : Table :=
  ⟨2, [⟨"s", Dtype.obj, [Cell.str "u", Cell.str "v"]⟩,
       ⟨"x", Dtype.numeric, [Cell.num (NumVal.fin 3), Cell.num (NumVal.fin 7)]⟩,
       ⟨"b", Dtype.boolean, [Cell.boolean true, Cell.boolean false]⟩]⟩

/-- Inactive parameters compose an all-true mask: the core of the
amended identity-filter claim, on the pure mask semantics. -/
lemma build_filters_inactive_id (df : Table) (p : Params) (hwf : wfB df = true)
    (hin : allInactiveB df p = true) (hnum : numNoMissingB df = true) :
    build_filters df p = df := by
  rw [allInactiveB, Bool.and_eq_true] at hin
  obtain ⟨hsearch, hcols⟩ := hin
  apply build_filters_of_allTrue df p hwf
  intro m hm
  unfold buildMasks at hm
  rcases List.mem_append.mp hm with hm | hm
  · unfold searchMask at hm
    rw [if_pos hsearch] at hm
    simp at hm
  · rcases (collectMasks_mem p df.cols m).mp hm with ⟨c, hcmem, hmc⟩
    have hq := List.all_eq_true.mp hcols c hcmem
    simp only [Bool.and_eq_true] at hq
    obtain ⟨⟨⟨hqsel, hqcon⟩, hqr⟩, hqb⟩ := hq
    intro b hb
    by_cases hcat : isCatDtype c.dtype = true
    · by_cases hn : nunique c.data ≤ 40
      · rw [colMask_cat_empty p c hcat hn hqsel] at hmc
        simp at hmc
      · rw [colMask_sub_empty p c hcat hn hqcon] at hmc
        simp at hmc
    · rw [Bool.not_eq_true] at hcat
      by_cases hnumd : isNumDtype c.dtype = true
      · by_cases hfin : ∃ a b2 : Rat, colMin c.data = some (NumVal.fin a)
            ∧ colMax c.data = some (NumVal.fin b2)
        · rcases hfin with ⟨a, b2, hmin, hmax⟩
          rw [colMask_num p c hcat hnumd hmin hmax, List.mem_singleton] at hmc
          subst hmc
          rcases List.mem_map.mp hb with ⟨x, hx, hbx⟩
          rw [← hbx]
          rw [beq_iff_eq.mp hqr, Option.getD_none]
          have hall := List.all_eq_true.mp hnum c hcmem
          rw [hnumd] at hall
          simp only [Bool.not_true, Bool.false_or] at hall
          rw [hmin, hmax] at hall
          have hall2 : c.data.all (fun x => (numValQ x).isSome) = true := hall
          have hx2 := List.all_eq_true.mp hall2 x hx
          cases hnv : numValQ x with
          | none => rw [hnv] at hx2; exact absurd hx2 (by simp)
          | some v =>
            have hvm : v ∈ colVals c.data := mem_colVals_of_mem hx hnv
            rw [betweenB_some hnv]
            rw [listMinNV_le hmin v hvm, le_listMaxNV hmax v hvm]
            rfl
        · rw [colMask_num_skip p c hcat hnumd
            (fun a b2 hab => hfin ⟨a, b2, hab.1, hab.2⟩)] at hmc
          simp at hmc
      · rw [Bool.not_eq_true] at hnumd
        rw [colMask_other p c hcat hnumd] at hmc
        simp at hmc

/-- C1 (counterexample): with every filter untouched — in particular the
slider of column "x" at its full default range — the run returns without
error (the bounds 1 < 2 are not degenerate) but drops the row whose "x"
cell is missing, so the result is not the source table. -/
theorem c1_counterexample :
    allInactiveB tbl1 prmNone = true ∧ wfB tbl1 = true
      ∧ anySliderCrashB tbl1 = false
      ∧ build_filtersE tbl1 prmNone ≠ FilterResult.ok tbl1 := by
  refine ⟨by decide, by decide, by decide, by decide⟩

/-- C1 (amended): if every filter parameter is inactive, no numeric
column has a degenerate finite range (min = max, where `st.slider`
would raise StreamlitAPIException), and no numeric column with finite
bounds holds a missing (non-numeric) cell, then the run returns the
source table exactly — same rows, same order. -/
theorem c1_identity_filter (df : Table) (p : Params) (hwf : wfB df = true)
    (hnc : anySliderCrashB df = false) (hin : allInactiveB df p = true)
    (hnum : numNoMissingB df = true) :
    build_filtersE df p = FilterResult.ok df := by
  unfold build_filtersE
  rw [if_neg (by simp [hnc]), build_filters_inactive_id df p hwf hin hnum]

/-- C1 (witness): the amended identity filter holds on a concrete table
with a string, a numeric and a boolean column and untouched widgets. -/
theorem c1_identity_filter_witness : build_filtersE tbl1w prmNone = FilterResult.ok tbl1w :=
  c1_identity_filter tbl1w prmNone (by decide) (by decide) (by decide) (by decide)

/-- A column whose cells are the literal string "nan" and a missing value. -/
def tbl2 : Table := ⟨2, [⟨"s", Dtype.obj, [Cell.str "nan", Cell.missing]⟩]⟩

/-- Parameters selecting the value "nan" in the multiselect of column "s". -/
def prm2 : Params :=
  ⟨"", fun n => if n == "s" then ⟨["nan"], "", none, BoolChoice.noFilter⟩ else inactive⟩

/-- C2 (counterexample): the multiselect filter on column "s" is active
(its mask is present and selects the legitimate, non-missing data value
"nan"), the second row's cell is missing — yet the filtered view keeps
both rows, because `astype(str)` renders the missing cell as "nan". -/
theorem c2_counterexample :
    colMask prm2 ⟨"s", Dtype.obj, [Cell.str "nan", Cell.missing]⟩ = [[true, true]]
      ∧ build_filters tbl2 prm2 = tbl2 := by
  refine ⟨by decide, by decide⟩

/-- C2 (amended): a row whose cell is missing in a column carrying an
active filter mask is dropped from the filtered view (`rowKept` is the
row's bit of the combined mask; `build_filters_eq_applyMask` shows the
view is the table restricted to those bits), provided the widget does
not match the string "nan", the `astype(str)` rendering of a missing
cell.  For a numeric-range mask no proviso is needed; for the
multiselect the selected set must not contain "nan"; for the substring
widget the query is a regular expression (pandas regex=True), and the
missing row is kept exactly when that regex matches "nan" — e.g. the
queries "a" or "n.n" keep it — so the theorem restricts to
metacharacter-free queries (`isLiteralPat`), on which regex search is
precisely case-insensitive substring containment, and requires the
query not to be a substring of "nan". -/
theorem c2_missing_excluded (df : Table) (p : Params) (hwf : wfB df = true)
    (c : Col) (hc : c ∈ df.cols) (i : Nat) (hi : i < df.nrows)
    (hmiss : c.data.getD i Cell.missing = Cell.missing) :
    (isNumDtype c.dtype = true → colMask p c ≠ [] → rowKept df p i = false) ∧
    (isCatDtype c.dtype = true → nunique c.data ≤ 40 →
      (p.col c.name).selected.contains "nan" = false →
      colMask p c ≠ [] → rowKept df p i = false) ∧
    (isCatDtype c.dtype = true → ¬ nunique c.data ≤ 40 →
      isLiteralPat (p.col c.name).contains = true →
      containsCI (p.col c.name).contains "nan" = false →
      colMask p c ≠ [] → rowKept df p i = false) := by
  refine ⟨?_, ?_, ?_⟩
  · intro hnumd hne
    have hcat := isCat_false_of_isNum hnumd
    by_cases hfin : ∃ a b2 : Rat, colMin c.data = some (NumVal.fin a)
        ∧ colMax c.data = some (NumVal.fin b2)
    · rcases hfin with ⟨a, b2, hmin, hmax⟩
      refine rowKept_false_of_pred df p hwf hc
        (by rw [colMask_num p c hcat hnumd hmin hmax]; exact List.mem_singleton.mpr rfl)
        hi ?_
      rw [hmiss]
      exact betweenB_none rfl
    · exact absurd (colMask_num_skip p c hcat hnumd
        (fun a b2 hab => hfin ⟨a, b2, hab.1, hab.2⟩)) hne
  · intro hcat hn hnan hne
    cases hsel : (p.col c.name).selected.isEmpty with
    | true => exact absurd (colMask_cat_empty p c hcat hn hsel) hne
    | false =>
      refine rowKept_false_of_pred df p hwf hc
        (by rw [colMask_cat_sel p c hcat hn hsel]; exact List.mem_singleton.mpr rfl)
        hi ?_
      rw [hmiss]
      exact hnan
  · intro hcat hn _hlit hnan hne
    cases hcon : ((p.col c.name).contains == "") with
    | true => exact absurd (colMask_sub_empty p c hcat hn hcon) hne
    | false =>
      refine rowKept_false_of_pred df p hwf hc
        (by rw [colMask_sub p c hcat hn hcon]; exact List.mem_singleton.mpr rfl)
        hi ?_
      rw [hmiss]
      exact hnan

/-- Parameters selecting the value "a" in the multiselect of column "s". -/
def prm2w : Params :=
  ⟨"", fun n => if n == "s" then ⟨["a"], "", none, BoolChoice.noFilter⟩ else inactive⟩

/-- A table with a string column holding "a" and a missing value. -/
def tbl2w : Table := ⟨2, [⟨"s", Dtype.obj, [Cell.str "a", Cell.missing]⟩]⟩

/-- C2 (witness): on a concrete two-row table with an active multiselect
not containing "nan", the missing row's keep bit is false. -/
theorem c2_missing_excluded_witness : rowKept tbl2w prm2w 1 = false :=
  ((c2_missing_excluded tbl2w prm2w (by decide)
      ⟨"s", Dtype.obj, [Cell.str "a", Cell.missing]⟩ (by decide) 1 (by decide)
      (by decide)).2.1) (by decide) (by decide) (by decide) (by decide)


/-- A one-row table with a single string column holding "a". -/
def tbl3 : Table := ⟨1, [⟨"s", Dtype.obj, [Cell.str "a"]⟩]⟩

/-- Parameters selecting the (absent) value "b" on column "s". -/
def prm3 : Params :=
  ⟨"", fun n => if n == "s" then ⟨["b"], "", none, BoolChoice.noFilter⟩ else inactive⟩

/-- C3 (counterexample): removing the value "b" from the selected set
{"b"} — a narrowing in the claim's sense — empties the multiselect,
which the code treats as "no filter": the row count grows from 0 to 1. -/
theorem c3_counterexample :
    (build_filters tbl3 prm3).nrows < (build_filters tbl3 prmNone).nrows := by
  decide

/-- C3 (amended): narrowing filter parameters column by column — a
smaller selected set that stays non-empty unless it already was empty,
the same substring and boolean choices, a nested numeric range — never
increases the row count of the filtered view. -/
theorem c3_monotone (df : Table) (p p' : Params) (hwf : wfB df = true)
    (hsearch : p'.search = p.search)
    (hnarrow : ∀ c ∈ df.cols, paramNarrowsB (p.col c.name) (p'.col c.name) = true) :
    (build_filters df p').nrows ≤ (build_filters df p).nrows := by
  rw [build_filters_eq_applyMask df p hwf, build_filters_eq_applyMask df p' hwf]
  show countTrue (keepMask df p') ≤ countTrue (keepMask df p)
  apply countTrue_le_of_pointwise
  · rw [keepMask_length, keepMask_length]
  · intro i hi'
    by_cases hi : i < df.nrows
    · rw [keepMask_getD hi] at hi' ⊢
      unfold rowKept
      rw [List.all_eq_true]
      intro m hm
      unfold buildMasks at hm
      rcases List.mem_append.mp hm with hm | hm
      · rw [← searchMask_congr df p p' hsearch] at hm
        exact rowKept_mask (List.mem_append.mpr (Or.inl hm)) hi'
      · rcases (collectMasks_mem p df.cols m).mp hm with ⟨c, hcmem, hmc⟩
        refine colMask_mono p p' c (hnarrow c hcmem) i ?_ m hmc
        intro m' hm'
        exact rowKept_mask (List.mem_append.mpr
          (Or.inr ((collectMasks_mem p' df.cols m').mpr ⟨c, hcmem, hm'⟩))) hi'
    · rw [getD_false_of_ge (by rw [keepMask_length]; omega)] at hi'
      exact absurd hi' (by simp)

/-- A two-row table with a string column and a numeric column. -/
def tbl3w : Table :=
  ⟨2, [⟨"s", Dtype.obj, [Cell.str "a", Cell.str "b"]⟩,
       ⟨"x", Dtype.numeric, [Cell.num (NumVal.fin 1), Cell.num (NumVal.fin 5)]⟩]⟩

/-- Wide parameters for the C3 witness: both values selected, slider at
the full range. -/
def prm3w : Params :=
  ⟨"", fun n => if n == "s" then ⟨["a", "b"], "", none, BoolChoice.noFilter⟩
       else if n == "x" then ⟨[], "", some (1, 5), BoolChoice.noFilter⟩
       else inactive⟩

/-- Narrowed parameters for the C3 witness: one value dropped from the
selection, the slider range shrunk to [2, 5]. -/
def prm3n : Params :=
  ⟨"", fun n => if n == "s" then ⟨["b"], "", none, BoolChoice.noFilter⟩
       else if n == "x" then ⟨[], "", some (2, 5), BoolChoice.noFilter⟩
       else inactive⟩

/-- C3 (witness): the amended monotonicity on a concrete table, where a
selection shrinks from {"a","b"} to {"b"} and a slider shrinks from
[1, 5] to [2, 5]. -/
theorem c3_monotone_witness :
    (build_filters tbl3w prm3n).nrows ≤ (build_filters tbl3w prm3w).nrows :=
  c3_monotone tbl3w prm3w prm3n (by decide) (by decide)
    (by intro c hc; fin_cases hc <;> decide)

/-- A table mixing an infinite value and a missing value in its numeric
column with a string column that filters both away. -/
def tbl4 : Table :=
  ⟨4, [⟨"s", Dtype.obj, [Cell.str "a", Cell.str "b", Cell.str "b", Cell.str "b"]⟩,
       ⟨"x", Dtype.numeric, [Cell.num NumVal.pinf, Cell.num (NumVal.fin 1),
         Cell.num (NumVal.fin 2), Cell.missing]⟩]⟩

/-- Parameters selecting "b" on column "s" and touching nothing else. -/
def prm4 : Params :=
  ⟨"", fun n => if n == "s" then ⟨["b"], "", none, BoolChoice.noFilter⟩ else inactive⟩

/-- Re-running the mask composition on the once-filtered view changes
nothing: the core of the amended idempotence claim, on the pure mask
semantics. -/
lemma build_filters_idem_aux (df : Table) (p : Params) (hwf : wfB df = true)
    (hinf : noInfB df = true) (hsel : substrSelEmptyB df p = true) :
    build_filters (build_filters df p) p = build_filters df p := by
  rw [build_filters_eq_applyMask df p hwf]
  have hwfV : wfB (applyMask (keepMask df p) df) = true :=
    wfB_applyMask df (keepMask df p) hwf (keepMask_length df p)
  apply build_filters_of_allTrue _ p hwfV
  intro m hm
  unfold buildMasks at hm
  rcases List.mem_append.mp hm with hm | hm
  · exact searchMask_allTrue_after df p hwf m hm
  · have hVcols : (applyMask (keepMask df p) df).cols
        = df.cols.map (fun c => Col.mk c.name c.dtype
            (maskFilter (keepMask df p) c.data)) := rfl
    rw [hVcols] at hm
    rcases (collectMasks_mem p _ m).mp hm with ⟨c', hc', hmc⟩
    rcases List.mem_map.mp hc' with ⟨c, hcmem, rfl⟩
    refine colMask_allTrue_after df p hwf c hcmem ?_ ?_ m hmc
    · intro hnumd
      have h0 := List.all_eq_true.mp hinf c hcmem
      rw [hnumd] at h0
      simpa using h0
    · intro hcatd hgt
      have h0 := List.all_eq_true.mp hsel c hcmem
      rw [hcatd] at h0
      simp only [Bool.not_true, Bool.false_or, Bool.or_eq_true, decide_eq_true_eq] at h0
      rcases h0 with h0 | h0
      · exact absurd h0 hgt
      · exact h0

/-- C4 (counterexample): filtering once removes the +inf row without
error, so on the second pass column "x" — skipped on the first pass for
its non-finite maximum — suddenly has finite (non-degenerate) bounds,
its full-range slider mask appears and drops the surviving
missing-valued row: the second run returns, but not the once-filtered
view. -/
theorem c4_counterexample :
    build_filtersE tbl4 prm4 = FilterResult.ok (build_filters tbl4 prm4)
      ∧ build_filtersE (build_filters tbl4 prm4) prm4
          ≠ FilterResult.ok (build_filters tbl4 prm4) := by
  refine ⟨by decide, by decide⟩

/-- C4 (amended): running the filter composer a second time with the same
parameters returns the once-filtered view unchanged, provided (i) no
numeric column holds an infinite value, (ii) the multiselect parameters
of substring-classified text columns (whose multiselect widget never
existed) are empty, (iii) the free-text search and every substring query
are free of regex metacharacters (so the pandas regex predicate is the
modelled substring test and `re.compile` cannot raise), and (iv) neither
the source table nor the filtered view has a numeric column with a
degenerate finite range, on which `st.slider` would raise
StreamlitAPIException instead of returning. -/
theorem c4_idempotent (df : Table) (p : Params) (hwf : wfB df = true)
    (hinf : noInfB df = true) (hsel : substrSelEmptyB df p = true)
    (_hlq : literalQueriesB df p = true)
    (hnc : anySliderCrashB df = false)
    (hnc2 : anySliderCrashB (build_filters df p) = false) :
    build_filtersE df p = FilterResult.ok (build_filters df p)
      ∧ build_filtersE (build_filters df p) p
          = FilterResult.ok (build_filters df p) := by
  constructor
  · unfold build_filtersE
    rw [if_neg (by simp [hnc])]
  · unfold build_filtersE
    rw [if_neg (by simp [hnc2]), build_filters_idem_aux df p hwf hinf hsel]

/-- Like `tbl4` but without the infinite value, and wide enough that the
filtered view keeps a non-degenerate numeric range. -/
def tbl4w : Table :=
  ⟨4, [⟨"s", Dtype.obj, [Cell.str "a", Cell.str "b", Cell.str "b", Cell.str "b"]⟩,
       ⟨"x", Dtype.numeric, [Cell.num (NumVal.fin 1), Cell.num (NumVal.fin 2),
         Cell.num (NumVal.fin 3), Cell.missing]⟩]⟩

/-- C4 (witness): the amended idempotence on a concrete table with an
active multiselect and a numeric column with a missing value. -/
theorem c4_idempotent_witness :
    build_filtersE tbl4w prm4 = FilterResult.ok (build_filters tbl4w prm4)
      ∧ build_filtersE (build_filters tbl4w prm4) prm4
          = FilterResult.ok (build_filters tbl4w prm4) :=
  c4_idempotent tbl4w prm4 (by decide) (by decide) (by decide) (by decide)
    (by decide) (by decide)

/-- A text column with exactly 40 distinct values. -/
def colD40 : Col := ⟨"c", Dtype.obj, [Cell.str "v00", Cell.str "v01", Cell.str "v02", Cell.str "v03", Cell.str "v04", Cell.str "v05", Cell.str "v06", Cell.str "v07", Cell.str "v08", Cell.str "v09", Cell.str "v10", Cell.str "v11", Cell.str "v12", Cell.str "v13", Cell.str "v14", Cell.str "v15", Cell.str "v16", Cell.str "v17", Cell.str "v18", Cell.str "v19", Cell.str "v20", Cell.str "v21", Cell.str "v22", Cell.str "v23", Cell.str "v24", Cell.str "v25", Cell.str "v26", Cell.str "v27", Cell.str "v28", Cell.str "v29", Cell.str "v30", Cell.str "v31", Cell.str "v32", Cell.str "v33", Cell.str "v34", Cell.str "v35", Cell.str "v36", Cell.str "v37", Cell.str "v38", Cell.str "v39"]⟩

/-- A text column with exactly 41 distinct values. -/
def colD41 : Col := ⟨"c", Dtype.obj, [Cell.str "w00", Cell.str "w01", Cell.str "w02", Cell.str "w03", Cell.str "w04", Cell.str "w05", Cell.str "w06", Cell.str "w07", Cell.str "w08", Cell.str "w09", Cell.str "w10", Cell.str "w11", Cell.str "w12", Cell.str "w13", Cell.str "w14", Cell.str "w15", Cell.str "w16", Cell.str "w17", Cell.str "w18", Cell.str "w19", Cell.str "w20", Cell.str "w21", Cell.str "w22", Cell.str "w23", Cell.str "w24", Cell.str "w25", Cell.str "w26", Cell.str "w27", Cell.str "w28", Cell.str "w29", Cell.str "w30", Cell.str "w31", Cell.str "w32", Cell.str "w33", Cell.str "w34", Cell.str "w35", Cell.str "w36", Cell.str "w37", Cell.str "w38", Cell.str "w39", Cell.str "w40"]⟩

/-- C5 (confirmed): for a text/categorical column the classifier picks
the multiselect widget exactly when the distinct non-missing count is at
most 40 and the substring widget exactly when it is 41 or more. -/
theorem c5_classifier_threshold (c : Col) (hcat : isCatDtype c.dtype = true) :
    (classify c = FilterKind.catSelect ↔ nunique c.data ≤ 40) ∧
    (classify c = FilterKind.catSubstring ↔ 41 ≤ nunique c.data) := by
  unfold classify
  rw [if_pos hcat]
  by_cases hn : nunique c.data ≤ 40
  · rw [if_pos hn]
    refine ⟨by simp [hn], ?_⟩
    constructor
    · intro h
      exact absurd h (by simp)
    · intro h
      omega
  · rw [if_neg hn]
    refine ⟨?_, by simp; omega⟩
    constructor
    · intro h
      exact absurd h (by simp)
    · intro h
      exact absurd h hn

/-- C5 (witness): 40 distinct values classify as multiselect, 41 as
substring. -/
theorem c5_classifier_threshold_witness :
    classify colD40 = FilterKind.catSelect
      ∧ classify colD41 = FilterKind.catSubstring :=
  ⟨(c5_classifier_threshold colD40 (by decide)).1.mpr (by decide),
   (c5_classifier_threshold colD41 (by decide)).2.mpr (by decide)⟩

/-- Finiteness of a pandas min/max result: true only on a finite number
(`math.isfinite` rejects NaN, modelled `none`, and both infinities). -/
def finiteBound : Option NumVal → Bool
  | some (NumVal.fin _) => true
  | _ => false

/-- A numeric column with min = max = 5 (degenerate range) and a missing
cell. -/
def colDeg : Col := ⟨"x", Dtype.numeric, [Cell.num (NumVal.fin 5), Cell.missing]⟩

/-- A single-column table around `colDeg`. -/
def tbl6 : Table := ⟨2, [colDeg]⟩

/-- C6 (counterexample): the source has no `min == max` degeneracy check,
so a numeric column whose minimum equals its maximum is still classified
as a range column — and far from skipping it, the run reaches
`st.slider(5.0, 5.0)` and raises StreamlitAPIException instead of
returning any table. -/
theorem c6_counterexample :
    classify colDeg = FilterKind.numRange
      ∧ colMin colDeg.data = colMax colDeg.data
      ∧ build_filtersE tbl6 prmNone = FilterResult.raisesSlider := by
  refine ⟨by decide, by decide, by decide⟩

/-- C6 (amended): for a numeric column the classifier answers SKIP
exactly when its minimum or maximum is not a finite number — which is in
particular the case for an entirely missing column — and a SKIP column
contributes no mask.  A degenerate `min == max` column with finite
bounds is NOT skipped: the code has no degeneracy check, so the run
reaches `st.slider(v, v)` and raises StreamlitAPIException — the whole
run crashes instead of producing a widget-less column. -/
theorem c6_skip_nonfinite (c : Col) (hnum : isNumDtype c.dtype = true) :
    (classify c = FilterKind.skipCol ↔
      ¬(finiteBound (colMin c.data) = true ∧ finiteBound (colMax c.data) = true)) ∧
    (c.data.all (fun x => x == Cell.missing) = true →
      classify c = FilterKind.skipCol) ∧
    (classify c = FilterKind.skipCol → ∀ p : Params, colMask p c = []) ∧
    (∀ a : Rat, colMin c.data = some (NumVal.fin a) →
      colMax c.data = some (NumVal.fin a) →
      ∀ (df : Table) (p : Params), c ∈ df.cols →
        build_filtersE df p = FilterResult.raisesSlider) := by
  have hcat : isCatDtype c.dtype = false := isCat_false_of_isNum hnum
  refine ⟨⟨?_, ?_⟩, ?_, ?_, ?_⟩
  · intro hskip hfin
    rcases hfin with ⟨h1, h2⟩
    cases hmin : colMin c.data with
    | none => rw [hmin] at h1; simp [finiteBound] at h1
    | some w =>
      cases w with
      | pinf => rw [hmin] at h1; simp [finiteBound] at h1
      | ninf => rw [hmin] at h1; simp [finiteBound] at h1
      | fin a =>
        cases hmax : colMax c.data with
        | none => rw [hmax] at h2; simp [finiteBound] at h2
        | some w' =>
          cases w' with
          | pinf => rw [hmax] at h2; simp [finiteBound] at h2
          | ninf => rw [hmax] at h2; simp [finiteBound] at h2
          | fin b =>
            rw [classify_num c hcat hnum hmin hmax] at hskip
            exact absurd hskip (by simp)
  · intro hnotfin
    apply classify_num_skip c hcat hnum
    intro a b hab
    exact hnotfin ⟨by rw [hab.1]; rfl, by rw [hab.2]; rfl⟩
  · intro hmissall
    have hcv : colVals c.data = [] := by
      rw [colVals, List.filterMap_eq_nil_iff]
      intro x hx
      have hxm := List.all_eq_true.mp hmissall x hx
      rw [beq_iff_eq.mp hxm]
      rfl
    apply classify_num_skip c hcat hnum
    intro a b hab
    have hnone : colMin c.data = none := by unfold colMin; rw [hcv]; rfl
    rw [hnone] at hab
    exact Option.noConfusion hab.1
  · intro hskip p
    apply colMask_num_skip p c hcat hnum
    intro a b hab
    rw [classify_num c hcat hnum hab.1 hab.2] at hskip
    exact absurd hskip (by simp)
  · intro a hmin hmax df p hc
    have hcrash : colSliderCrashB c = true := by
      unfold colSliderCrashB
      rw [hcat, hnum, hmin, hmax]
      simp
    have hany : anySliderCrashB df = true :=
      List.any_eq_true.mpr ⟨c, hc, hcrash⟩
    unfold build_filtersE
    rw [if_pos hany]

/-- C6 (witness): a column with an infinite maximum is skipped and gives
no mask, an entirely missing column is skipped, and the degenerate
column of `tbl6` crashes the run. -/
theorem c6_skip_nonfinite_witness :
    classify ⟨"x", Dtype.numeric, [Cell.num NumVal.pinf, Cell.num (NumVal.fin 1)]⟩
        = FilterKind.skipCol
      ∧ colMask prmNone ⟨"x", Dtype.numeric,
          [Cell.num NumVal.pinf, Cell.num (NumVal.fin 1)]⟩ = []
      ∧ classify ⟨"y", Dtype.numeric, [Cell.missing, Cell.missing]⟩
        = FilterKind.skipCol
      ∧ build_filtersE tbl6 prmNone = FilterResult.raisesSlider := by
  have h1 := c6_skip_nonfinite
    ⟨"x", Dtype.numeric, [Cell.num NumVal.pinf, Cell.num (NumVal.fin 1)]⟩ (by decide)
  have h2 := c6_skip_nonfinite
    ⟨"y", Dtype.numeric, [Cell.missing, Cell.missing]⟩ (by decide)
  have h3 := c6_skip_nonfinite colDeg (by decide)
  have hx : classify ⟨"x", Dtype.numeric,
      [Cell.num NumVal.pinf, Cell.num (NumVal.fin 1)]⟩ = FilterKind.skipCol :=
    h1.1.mpr (by decide)
  exact ⟨hx, h1.2.2.1 hx prmNone, h2.2.1 (by decide),
    h3.2.2.2 5 (by decide) (by decide) tbl6 prmNone (by decide)⟩

/-- C9 (confirmed): the URL loader picks the comma delimiter exactly when
the text's comma count is at least its tab count (comma wins ties), and
the tab delimiter exactly when tabs outnumber commas; in particular the
two example texts of the spec parse with comma and tab respectively. -/
theorem c9_delimiter :
    (∀ s : String, (sniffSep s = ',' ↔ s.toList.count '\t' ≤ s.toList.count ',')
      ∧ (sniffSep s = '\t' ↔ s.toList.count ',' < s.toList.count '\t'))
    ∧ sniffSep "a,b,c\n1,2,3" = ','
    ∧ sniffSep "a\tb\tc\n1\t2\t3" = '\t' := by
  refine ⟨?_, by decide, by decide⟩
  intro s
  unfold sniffSep
  simp only [String.toList]
  by_cases h : s.data.count '\t' ≤ s.data.count ','
  · rw [if_pos h]
    refine ⟨by simp [h], ?_⟩
    constructor
    · intro hc
      exact absurd hc (by decide)
    · intro hlt
      omega
  · rw [if_neg h]
    refine ⟨?_, by simp; omega⟩
    constructor
    · intro hc
      exact absurd hc (by decide)
    · intro hc
      exact absurd hc h

/-- A table of two select-classified string columns with nothing chosen. -/
def tbl10 : Table :=
  ⟨2, [⟨"s", Dtype.obj, [Cell.str "a", Cell.str "b"]⟩,
       ⟨"t", Dtype.obj, [Cell.str "c", Cell.missing]⟩]⟩

/-- C10 (confirmed): an empty multiselect means "no filter applied" —
the column contributes no mask at all, and a table with only
select-classified columns and empty selections (and no free-text search)
passes through `build_filters` unchanged, missing cells included. -/
theorem c10_empty_selection :
    (∀ (p : Params) (c : Col), isCatDtype c.dtype = true → nunique c.data ≤ 40 →
      (p.col c.name).selected = [] → colMask p c = []) ∧
    (∀ (df : Table) (p : Params), wfB df = true → p.search = "" →
      (∀ c ∈ df.cols, isCatDtype c.dtype = true ∧ nunique c.data ≤ 40 ∧
        (p.col c.name).selected = []) →
      build_filters df p = df) := by
  constructor
  · intro p c hcat hn hsel
    exact colMask_cat_empty p c hcat hn (by rw [hsel]; rfl)
  · intro df p hwf hsearch hcols
    apply build_filters_of_allTrue df p hwf
    intro m hm
    unfold buildMasks at hm
    rcases List.mem_append.mp hm with hm | hm
    · unfold searchMask at hm
      rw [if_pos (by rw [hsearch]; rfl)] at hm
      simp at hm
    · rcases (collectMasks_mem p df.cols m).mp hm with ⟨c, hcmem, hmc⟩
      obtain ⟨hcat, hn, hsel⟩ := hcols c hcmem
      rw [colMask_cat_empty p c hcat hn (by rw [hsel]; rfl)] at hmc
      simp at hmc

/-- C10 (witness): both parts on concrete inputs — the empty multiselect
yields no mask, and the two-column table passes through unchanged. -/
theorem c10_empty_selection_witness :
    colMask prmNone ⟨"s", Dtype.obj, [Cell.str "a", Cell.str "b"]⟩ = []
      ∧ build_filters tbl10 prmNone = tbl10 :=
  ⟨c10_empty_selection.1 prmNone ⟨"s", Dtype.obj, [Cell.str "a", Cell.str "b"]⟩
      (by decide) (by decide) (by decide),
   c10_empty_selection.2 tbl10 prmNone (by decide) (by decide)
      (by intro c hc; fin_cases hc <;> refine ⟨by decide, by decide, by decide⟩)⟩


lemma map_fst_pair {β : Type} (l : List Cell) (f : Cell → β) :
    (l.map (fun kc => (kc, f kc))).map Prod.fst = l := by
  induction l with
  | nil => rfl
  | cons a l ih => simp [ih]

/-- A table with a string group column (one value missing) and a numeric
column. -/
def tbl7 : Table :=
  ⟨2, [⟨"g", Dtype.obj, [Cell.str "a", Cell.missing]⟩,
       ⟨"x", Dtype.numeric, [Cell.num (NumVal.fin 1), Cell.num (NumVal.fin 2)]⟩]⟩

/-- C7 (counterexample): the second row's group cell is missing, yet the
count summary contains only the single group "a" with count 1 — pandas
`groupby` silently drops missing keys instead of giving them a group. -/
theorem c7_counterexample :
    Cell.missing ∈ colData tbl7 "g"
      ∧ summarize tbl7 "g" AggKind.count
        = SummaryResult.table [(Cell.str "a", [Cell.num (NumVal.fin 1)])] := by
  refine ⟨by decide, by decide⟩

/-- C7 (amended): whenever the summary engine produces a table, its group
keys are exactly the distinct non-missing values of the group column:
a row whose group cell is missing is dropped from the summary entirely
and never forms a group of its own. -/
theorem c7_groups_drop_missing (df : Table) (g : String) (k : AggKind)
    (rows : List (Cell × List Cell)) (h : summarize df g k = SummaryResult.table rows)
    (x : Cell) : x ∈ rows.map Prod.fst ↔ (¬ x = Cell.missing ∧ x ∈ colData df g) := by
  have hkeys : rows.map Prod.fst = groupKeys df g := by
    unfold summarize at h
    split at h
    · exact absurd h (by simp)
    · split at h
      · exact absurd h (by simp)
      · split at h
        · split at h
          · exact absurd h (by simp)
          · rw [SummaryResult.table.injEq] at h
            rw [← h]
            exact map_fst_pair _ _
        · split at h
          · exact absurd h (by simp)
          · rw [SummaryResult.table.injEq] at h
            rw [← h]
            exact map_fst_pair _ _
  rw [hkeys, groupKeys_mem]

/-- C7 (witness): on the concrete two-row table, "a" is a group key and
it is a non-missing value of the group column. -/
theorem c7_groups_drop_missing_witness :
    Cell.str "a" ∈ [(Cell.str "a", [Cell.num (NumVal.fin 1)])].map Prod.fst :=
  (c7_groups_drop_missing tbl7 "g" AggKind.count
    [(Cell.str "a", [Cell.num (NumVal.fin 1)])] (by decide)
    (Cell.str "a")).mpr ⟨by decide, by decide⟩

/-- A table whose only column is numeric and named "g". -/
def tbl8 : Table :=
  ⟨2, [⟨"g", Dtype.numeric, [Cell.num (NumVal.fin 1), Cell.num (NumVal.fin 1)]⟩]⟩

/-- C8 (counterexample): grouping by the numeric column "g" with a mean
aggregation, when "g" is the only numeric column, does not produce the
"nothing to summarize" no-op: `numeric_cols` is non-empty (it contains
the group column itself), and `reset_index()` raises
`ValueError: cannot insert g, already exists`. -/
theorem c8_counterexample :
    summarize tbl8 "g" AggKind.mean = SummaryResult.raisesError := by
  decide

/-- C8 (amended): the informational "no numeric columns to summarise"
no-op is reported exactly when the filtered table has no numeric column
at all, regardless of the aggregation kind; when the group column is
itself a numeric column, a non-count aggregation instead raises the
uncaught `reset_index` collision error. -/
theorem c8_no_numeric_noop (df : Table) (g : String) (k : AggKind) :
    (summarize df g k = SummaryResult.noNumeric ↔ numericCols df = []) ∧
    ((numericCols df).any (fun c => c.name == g) = true →
      k ≠ AggKind.count → summarize df g k = SummaryResult.raisesError) := by
  constructor
  · constructor
    · intro h
      unfold summarize at h
      split at h
      · next hemp => exact (isEmpty_true_iff _).mp hemp
      · split at h
        · exact absurd h (by simp)
        · split at h
          · split at h
            · exact absurd h (by simp)
            · exact absurd h (by simp)
          · split at h
            · exact absurd h (by simp)
            · exact absurd h (by simp)
    · intro h
      unfold summarize
      rw [if_pos (by rw [h]; rfl)]
  · intro hany hk
    rcases List.any_eq_true.mp hany with ⟨c, hcnum, hcg⟩
    have hcmem : c ∈ df.cols := (List.mem_filter.mp hcnum).1
    have hne : ((numericCols df).isEmpty) = false := by
      cases hemp : (numericCols df) with
      | nil => rw [hemp] at hcnum; simp at hcnum
      | cons a l => rfl
    have hfind : (df.cols.find? (fun c => c.name == g)).isNone = false := by
      cases hf : df.cols.find? (fun c => c.name == g) with
      | none =>
        exfalso
        have := List.find?_eq_none.mp hf c hcmem
        exact absurd hcg this
      | some c0 => rfl
    unfold summarize
    rw [if_neg (by rw [hne]; simp), if_neg (by rw [hfind]; simp)]
    cases k with
    | count => exact absurd rfl hk
    | mean => simp [hany]
    | median => simp [hany]
    | sum => simp [hany]

/-- C8 (witness): a table with one string column and no numeric columns
reports the no-op for a mean aggregation, and the numeric-group error
part fires on `tbl8`. -/
theorem c8_no_numeric_noop_witness :
    summarize ⟨1, [⟨"s", Dtype.obj, [Cell.str "a"]⟩]⟩ "s" AggKind.mean
        = SummaryResult.noNumeric
      ∧ summarize tbl8 "g" AggKind.sum = SummaryResult.raisesError :=
  ⟨(c8_no_numeric_noop ⟨1, [⟨"s", Dtype.obj, [Cell.str "a"]⟩]⟩ "s"
      AggKind.mean).1.mpr (by decide),
   (c8_no_numeric_noop tbl8 "g" AggKind.sum).2 (by decide) (by decide)⟩

end Theta
